import Mathlib

/-!
Verification of the data-access layer of `src/data.js` (crypto-tracker).

The file shallowly embeds the core of `data.js`: the error classifier
(`handleAPIError`), the retrying fetch wrapper (`fetchWithRetry`), the cache,
the rate-limited request queue (`rateLimiter`), and the five domain
operations.  HTTP traffic is abstracted as a function from the call index to
the server's observable answer; the JavaScript event loop of the queue is
embedded as a small-step state machine whose steps are exactly the suspension
points of the source (`await fn()`, `await setTimeout`).  Times and the
backoff multiplier are rationals, faithful to the exact arithmetic the
source performs on them.
-/

namespace CryptoData

/-! ### `ERROR_MESSAGES` and the `APIError` class -/

/-- `ERROR_MESSAGES.NETWORK` in `data.js`. -/
def msgNETWORK : String := "Unable to connect. Please check your internet connection."

/-- `ERROR_MESSAGES.RATE_LIMIT` in `data.js`. -/
def msgRATE_LIMIT : String := "Too many requests. Please wait a moment and try again."

/-- `ERROR_MESSAGES.NOT_FOUND` in `data.js`. -/
def msgNOT_FOUND : String := "Coin not found. Please check the symbol and try again."

/-- `ERROR_MESSAGES.SERVER` in `data.js`. -/
def msgSERVER : String := "CoinGecko is having issues. Please try again later."

/-- `ERROR_MESSAGES.UNKNOWN` in `data.js`. -/
def msgUNKNOWN : String := "Something went wrong. Please try again."

/-- The `APIError` class: technical `message`, `code` tag, `userMessage`. -/
structure APIErr where
  message : String
  code : String
  userMessage : String
deriving DecidableEq

/-- The `APIError` constructor; `this.userMessage = userMessage || message`
falls back to the technical message when the user message is falsy. -/
def mkAPIError (message code userMessage : String) : APIErr :=
  ⟨message, code, if userMessage = "" then message else userMessage⟩

/-- A JavaScript exception value as seen by the data layer: either the
`APIError` class of `data.js`, or a plain engine error (e.g. a `TypeError`
raised by a property access) carrying its `name` and `message`. -/
inductive JSErr where
  | api (e : APIErr)
  | plain (name message : String)
deriving DecidableEq

/-- Whether a delivered error is an instance of the `APIError` class. -/
def JSErr.isClassified : JSErr → Bool
  | .api _ => true
  | .plain _ _ => false

/-! ### The error classifier `handleAPIError` -/

/-- The technical-message suffix ``context ? ` during ${context}` : ''``. -/
def ctxSuffix (context : String) : String :=
  if context = "" then "" else " during " ++ context

/-- `handleAPIError(response, context)` as a function of `response.status`. -/
def handleAPIError (status : Nat) (context : String) : APIErr :=
  if status = 429 then
    mkAPIError ("Rate limited" ++ ctxSuffix context) "RATE_LIMIT" msgRATE_LIMIT
  else if status = 404 then
    mkAPIError ("Not found" ++ ctxSuffix context) "NOT_FOUND" msgNOT_FOUND
  else if 500 ≤ status then
    mkAPIError ("Server error " ++ toString status ++ ctxSuffix context) "SERVER" msgSERVER
  else
    mkAPIError ("HTTP " ++ toString status ++ ctxSuffix context) "UNKNOWN" msgUNKNOWN

/-! ### Parsed JSON payloads -/

/-- Parsed JSON values, the result of `await response.json()`. -/
inductive JSON where
  | null
  | bool (b : Bool)
  | num (q : ℚ)
  | str (s : String)
  | arr (elems : List JSON)
  | obj (fields : List (String × JSON))

/-- JavaScript truthiness of a JSON value (used by the `if (cached)` tests). -/
def jsTruthy : JSON → Bool
  | .null => false
  | .bool b => b
  | .num q => !(q == 0)
  | .str s => !(s == "")
  | .arr _ => true
  | .obj _ => true

/-! ### The fetch wrapper `fetchWithRetry` -/

/-- The observable behaviour of one HTTP call.  `httpStatus` carries the
status of a `!response.ok` response; `badBody` is an ok response whose
`response.json()` rejects (a `SyntaxError` with the given message);
`netFail` is a rejection of `fetch` itself (no response received). -/
inductive FetchOutcome where
  | success (body : JSON)
  | badBody (message : String)
  | httpStatus (status : Nat)
  | netFail (name message : String)

/-- Does the second character list occur at the head of the first? -/
def leadMatch : List Char → List Char → Bool
  | _, [] => true
  | [], _ :: _ => false
  | c :: cs, p :: ps => c == p && leadMatch cs ps

/-- Does the second character list occur anywhere inside the first? -/
def occursIn : List Char → List Char → Bool
  | [], pat => leadMatch [] pat
  | c :: cs, pat => leadMatch (c :: cs) pat || occursIn cs pat

/-- JS `String.prototype.includes`. -/
def strIncludes (s pat : String) : Bool :=
  occursIn s.data pat.data

/-- The tail of the `catch` block of `fetchWithRetry`, wrapping an exception
that is not an `APIError`: a `TypeError` whose message mentions `fetch` (a
transport failure) becomes NETWORK, anything else becomes UNKNOWN carrying
the original message. -/
def classifyCaught (name message : String) : APIErr :=
  if name == "TypeError" && strIncludes message "fetch" then
    mkAPIError "Network error" "NETWORK" msgNETWORK
  else
    mkAPIError message "UNKNOWN" msgUNKNOWN

/-- The outcome of a `fetchWithRetry` run: the value returned or thrown, the
number of HTTP calls made, and the backoff delays slept before each retry
(in milliseconds). -/
structure FetchRun where
  result : Except JSErr JSON
  calls : Nat
  delays : List Nat

/-- The `for (attempt = 0; attempt <= maxRetries; attempt++)` loop of
`fetchWithRetry`.  `server n` is the answer of the `n`-th HTTP call;
`remaining = maxRetries - attempt` is the number of retries still allowed
(`attempt < maxRetries` in the source is `remaining > 0` here). -/
def fetchLoop (server : Nat → FetchOutcome) (context : String) :
    Nat → Nat → FetchRun
  | attempt, remaining =>
    match server attempt with
    | .success body => ⟨.ok body, 1, []⟩
    | .badBody m => ⟨.error (.api (classifyCaught "SyntaxError" m)), 1, []⟩
    | .netFail name m => ⟨.error (.api (classifyCaught name m)), 1, []⟩
    | .httpStatus status =>
      let e := handleAPIError status context
      if e.code = "RATE_LIMIT" then
        match remaining with
        | 0 => ⟨.error (.api e), 1, []⟩
        | r + 1 =>
          let rest := fetchLoop server context (attempt + 1) r
          ⟨rest.result, rest.calls + 1, min 30000 (1000 * 2 ^ attempt) :: rest.delays⟩
      else ⟨.error (.api e), 1, []⟩

/-- `fetchWithRetry(url, context, maxRetries)` run against a server whose
`n`-th answer is `server n`; the URL only determines which server is hit, so
it is abstracted into `server`. -/
def fetchWithRetry (server : Nat → FetchOutcome) (context : String)
    (maxRetries : Nat) : FetchRun :=
  fetchLoop server context 0 maxRetries

/-! ### Theorems for claim C1 -/

/-- C1: `fetchWithRetry(url, context, maxRetries = 2)` against a server
answering 429, 429, 200 makes exactly 3 HTTP calls and returns the parsed
success payload; against 429, 429, 429 it makes exactly 3 calls and then
raises a RATE_LIMIT classified error; before each RATE_LIMIT retry it delays
`min(30000, 1000 * 2 ^ attempt)` ms; and any classified error other than
RATE_LIMIT (another HTTP status, or a failure of `fetch` itself) is raised
to the caller without any retry. -/
theorem fetchWithRetry_retry_spec
    (server : Nat → FetchOutcome) (context : String) (payload : JSON) :
    (server 0 = .httpStatus 429 → server 1 = .httpStatus 429 →
      server 2 = .success payload →
      fetchWithRetry server context 2 =
        ⟨.ok payload, 3, [min 30000 (1000 * 2 ^ 0), min 30000 (1000 * 2 ^ 1)]⟩) ∧
    (server 0 = .httpStatus 429 → server 1 = .httpStatus 429 →
      server 2 = .httpStatus 429 →
      fetchWithRetry server context 2 =
        ⟨.error (.api (handleAPIError 429 context)), 3,
          [min 30000 (1000 * 2 ^ 0), min 30000 (1000 * 2 ^ 1)]⟩ ∧
      (handleAPIError 429 context).code = "RATE_LIMIT") ∧
    (∀ status, server 0 = .httpStatus status →
      (handleAPIError status context).code ≠ "RATE_LIMIT" →
      fetchWithRetry server context 2 =
        ⟨.error (.api (handleAPIError status context)), 1, []⟩) ∧
    (∀ name m, server 0 = .netFail name m →
      fetchWithRetry server context 2 =
        ⟨.error (.api (classifyCaught name m)), 1, []⟩) := by
  have hcode : (handleAPIError 429 context).code = "RATE_LIMIT" := by
    simp [handleAPIError, mkAPIError]
  refine ⟨fun h0 h1 h2 => ?_, fun h0 h1 h2 => ⟨?_, hcode⟩, fun status h0 hne => ?_,
    fun name m h0 => ?_⟩
  · rw [fetchWithRetry, fetchLoop, h0]
    simp only [hcode, if_pos rfl]
    rw [fetchLoop, h1]
    simp only [hcode, if_pos rfl]
    rw [fetchLoop, h2]
    simp
  · rw [fetchWithRetry, fetchLoop, h0]
    simp only [hcode, if_pos rfl]
    rw [fetchLoop, h1]
    simp only [hcode, if_pos rfl]
    rw [fetchLoop, h2]
    simp [hcode]
  · rw [fetchWithRetry, fetchLoop, h0]
    simp [hne]
  · rw [fetchWithRetry, fetchLoop, h0]

/-- A server answering 429, 429, then ok. -/
def srv429ok : Nat → FetchOutcome := fun n =>
  if n < 2 then .httpStatus 429 else .success .null

/-- A server always answering 429. -/
def srv429 : Nat → FetchOutcome := fun _ => .httpStatus 429

/-- A server answering 503, then ok. -/
def srv503 : Nat → FetchOutcome := fun n =>
  if n = 0 then .httpStatus 503 else .success .null

/-- A server whose `fetch` rejects with the browser transport failure. -/
def srvDown : Nat → FetchOutcome := fun _ => .netFail "TypeError" "Failed to fetch"

/-- Witness for C1 at concrete servers: 3 calls then success, 3 calls then
RATE_LIMIT, 1 call for a SERVER error, 1 call for a transport failure. -/
theorem fetchWithRetry_retry_spec_witness :
    fetchWithRetry srv429ok "coin search" 2 = ⟨.ok .null, 3, [1000, 2000]⟩ ∧
    fetchWithRetry srv429 "coin search" 2 =
      ⟨.error (.api (handleAPIError 429 "coin search")), 3, [1000, 2000]⟩ ∧
    fetchWithRetry srv503 "market data" 2 =
      ⟨.error (.api (handleAPIError 503 "market data")), 1, []⟩ ∧
    fetchWithRetry srvDown "" 2 =
      ⟨.error (.api (classifyCaught "TypeError" "Failed to fetch")), 1, []⟩ := by
  refine ⟨?_, ?_, ?_, ?_⟩
  · have h := (fetchWithRetry_retry_spec srv429ok "coin search" JSON.null).1 rfl rfl rfl
    simpa using h
  · have h := ((fetchWithRetry_retry_spec srv429 "coin search" JSON.null).2.1 rfl rfl rfl).1
    simpa using h
  · have h := (fetchWithRetry_retry_spec srv503 "market data" JSON.null).2.2.1 503 rfl
      (by simp [handleAPIError, mkAPIError])
    simpa using h
  · exact (fetchWithRetry_retry_spec srvDown "" JSON.null).2.2.2 "TypeError" "Failed to fetch" rfl

/-! ### Theorems for claim C6 -/

/-- C6: the classifier deterministically returns exactly one of the five
kinds with the table's fixed user message: 429 is RATE_LIMIT, 404 is
NOT_FOUND, any status at least 500 is SERVER, any other status is UNKNOWN
(in particular any other non-2xx one); a transport failure — `fetch`
rejecting with a `TypeError` that mentions `fetch`, no response received —
is classified NETWORK with the internet-connection message. -/
theorem handleAPIError_table (status : Nat) (context : String) :
    (handleAPIError status context).code ∈
      ["NETWORK", "RATE_LIMIT", "NOT_FOUND", "SERVER", "UNKNOWN"] ∧
    (status = 429 → (handleAPIError status context).code = "RATE_LIMIT" ∧
      (handleAPIError status context).userMessage = msgRATE_LIMIT) ∧
    (status = 404 → (handleAPIError status context).code = "NOT_FOUND" ∧
      (handleAPIError status context).userMessage = msgNOT_FOUND) ∧
    (500 ≤ status → (handleAPIError status context).code = "SERVER" ∧
      (handleAPIError status context).userMessage = msgSERVER) ∧
    (status ≠ 429 → status ≠ 404 → status < 500 →
      (handleAPIError status context).code = "UNKNOWN" ∧
      (handleAPIError status context).userMessage = msgUNKNOWN) ∧
    (∀ name m, name = "TypeError" → strIncludes m "fetch" = true →
      (classifyCaught name m).code = "NETWORK" ∧
      (classifyCaught name m).userMessage = msgNETWORK) := by
  refine ⟨?_, fun h => ?_, fun h => ?_, fun h => ?_, fun h1 h2 h3 => ?_,
    fun name m hn hm => ?_⟩
  · unfold handleAPIError mkAPIError
    split_ifs <;> simp [msgRATE_LIMIT, msgNOT_FOUND, msgSERVER, msgUNKNOWN]
  · subst h; simp [handleAPIError, mkAPIError, msgRATE_LIMIT]
  · subst h; simp [handleAPIError, mkAPIError, msgNOT_FOUND]
  · have h1 : status ≠ 429 := by omega
    have h2 : status ≠ 404 := by omega
    simp [handleAPIError, mkAPIError, h1, h2, h, msgSERVER]
  · have h4 : ¬ (500 ≤ status) := by omega
    simp [handleAPIError, mkAPIError, h1, h2, h4, msgUNKNOWN]
  · subst hn
    simp [classifyCaught, mkAPIError, hm, msgNETWORK]

/-- Witness for C6 at concrete statuses 429, 404, 503, 418 and at the
browser transport failure. -/
theorem handleAPIError_table_witness :
    (handleAPIError 429 "coin search").code = "RATE_LIMIT" ∧
    (handleAPIError 404 "coin details").userMessage = msgNOT_FOUND ∧
    (handleAPIError 503 "market data").code = "SERVER" ∧
    (handleAPIError 418 "").code = "UNKNOWN" ∧
    (classifyCaught "TypeError" "Failed to fetch").userMessage = msgNETWORK :=
  ⟨((handleAPIError_table 429 "coin search").2.1 rfl).1,
   ((handleAPIError_table 404 "coin details").2.2.1 rfl).2,
   ((handleAPIError_table 503 "market data").2.2.2.1 (by norm_num)).1,
   ((handleAPIError_table 418 "").2.2.2.2.1 (by norm_num) (by norm_num) (by norm_num)).1,
   ((handleAPIError_table 0 "").2.2.2.2.2 "TypeError" "Failed to fetch" rfl (by decide)).2⟩

/-! ### The cache -/

/-- A cache entry: `{ value, expires: Date.now() + ttlMs }`. -/
structure CEntry (α : Type) where
  value : α
  expires : ℚ

/-- The backing store `cache.data`, one slot per key.  The source keeps one
heterogeneous store; the domain operations use disjoint key prefixes
(`search:`, `coin:`, `history:`, `movers`, `prices:`), so each operation's
slice of the store is modelled at its own value type. -/
def CacheStore (α : Type) := String → Option (CEntry α)

/-- The empty store. -/
def cacheEmpty {α : Type} : CacheStore α := fun _ => none

/-- `cache.set(key, value, ttlMs)` at time `now`. -/
def cset {α : Type} (s : CacheStore α) (k : String) (v : α) (ttl now : ℚ) :
    CacheStore α :=
  fun k2 => if k2 = k then some ⟨v, now + ttl⟩ else s k2

/-- `cache.get(key)` at time `now`: returns the stored value unless the
entry is missing or expired (`Date.now() > item.expires`), deleting an
expired entry as a side effect.  Returns the value read and the store
afterwards. -/
def cget {α : Type} (s : CacheStore α) (k : String) (now : ℚ) :
    Option α × CacheStore α :=
  match s k with
  | none => (none, s)
  | some item =>
    if now > item.expires then
      (none, fun k2 => if k2 = k then none else s k2)
    else (some item.value, s)

/-! ### Theorems for claim C3 -/

/-- C3 fails at the boundary `t = ttl`: the source expires an entry only
when `Date.now() > item.expires`, so a `get` at exactly `t0 + ttl` still
returns the value instead of the absent marker. -/
theorem cache_get_at_ttl_counterexample :
    (cget (cset (cacheEmpty (α := Nat)) "k" 7 100 0) "k" (0 + 100)).1 = some 7 ∧
    (cget (cset (cacheEmpty (α := Nat)) "k" 7 100 0) "k" (0 + 100)).1 ≠ none := by
  have hlt : ¬ ((0 : ℚ) + 100 > 0 + 100) := by norm_num
  have h1 : (cget (cset (cacheEmpty (α := Nat)) "k" 7 100 0) "k" (0 + 100)).1 = some 7 := by
    simp [cget, cset, cacheEmpty, hlt]
  exact ⟨h1, by rw [h1]; simp⟩

/-- C3 amended: after `cache.set(k, v, ttl)` at `t0`, a `cache.get(k)` at
`t0 + t` returns `v` for every `t ≤ ttl`, and for every `t > ttl` it
returns the absent marker and removes the entry from the store. -/
theorem cache_get_spec {α : Type} (s : CacheStore α) (k : String) (v : α)
    (ttl t0 t : ℚ) :
    (t ≤ ttl → (cget (cset s k v ttl t0) k (t0 + t)).1 = some v ∧
      (cget (cset s k v ttl t0) k (t0 + t)).2 k = some ⟨v, t0 + ttl⟩) ∧
    (t > ttl → (cget (cset s k v ttl t0) k (t0 + t)).1 = none ∧
      (cget (cset s k v ttl t0) k (t0 + t)).2 k = none) := by
  have hk : cset s k v ttl t0 k = some ⟨v, t0 + ttl⟩ := by simp [cset]
  constructor
  · intro h
    have hlt : ¬ (t0 + t > t0 + ttl) := by push_neg; linarith
    simp [cget, hk, hlt, cset]
  · intro h
    have hlt : t0 + t > t0 + ttl := by linarith
    simp [cget, hk, hlt]

/-- Witness for the amended C3 at `ttl = 100`, `t0 = 50`: a read 100 ms
after the write still hits, a read 101 ms after misses and evicts. -/
theorem cache_get_spec_witness :
    ((cget (cset (cacheEmpty (α := Nat)) "k" 7 100 50) "k" (50 + 100)).1 = some 7 ∧
      (cget (cset (cacheEmpty (α := Nat)) "k" 7 100 50) "k" (50 + 100)).2 "k" =
        some ⟨7, 50 + 100⟩) ∧
    ((cget (cset (cacheEmpty (α := Nat)) "k" 7 100 50) "k" (50 + 101)).1 = none ∧
      (cget (cset (cacheEmpty (α := Nat)) "k" 7 100 50) "k" (50 + 101)).2 "k" = none) :=
  ⟨(cache_get_spec cacheEmpty "k" 7 100 50 100).1 (by norm_num),
   (cache_get_spec cacheEmpty "k" 7 100 50 101).2 (by norm_num)⟩

/-! ### The rate-limited request queue

The queue runs on the JavaScript event loop: `enqueue` pushes, re-sorts and
calls `processQueue`, whose `async` body executes synchronously up to its
first true suspension point — `await setTimeout(waitTime)` when throttled,
otherwise `await fn()` for the entry it has already shifted.  The state
machine below has exactly those suspension points as step boundaries. -/

/-- `minInterval` (ms): ~50 requests/min. -/
def minInterval : ℚ := 1200

/-- `maxBackoff` (ms). -/
def maxBackoff : ℚ := 60000

/-- A queued request `{ fn, resolve, reject, priority }`; `id` names the
operation and its deferred result. -/
structure Entry where
  id : Nat
  priority : Int
deriving DecidableEq

/-- The comparator `(a, b) => b.priority - a.priority` given to
`Array.prototype.sort`: `a` may precede `b` iff `b.priority <= a.priority`. -/
def prioGE (a b : Entry) : Prop := b.priority ≤ a.priority

instance : DecidableRel prioGE := fun a b =>
  inferInstanceAs (Decidable (b.priority ≤ a.priority))

instance : IsTotal Entry prioGE := ⟨fun a b => le_total b.priority a.priority⟩

instance : IsTrans Entry prioGE := ⟨fun _ _ _ h1 h2 => le_trans h2 h1⟩

/-- `this.queue.sort((a, b) => b.priority - a.priority)`.  ECMAScript sorts
are stable; `List.insertionSort` is stable in the same sense. -/
def sortQueue (q : List Entry) : List Entry := q.insertionSort prioGE

/-- The completion outcome of a dispatched operation (`await fn()`):
resolved, or rejected with an error carrying `error.code`. -/
inductive Outcome where
  | ok
  | err (code : String)
deriving DecidableEq

/-- Where the single dispatch loop of `processQueue` is suspended: `idle`
(`processing === false`), `sleeping` in `await setTimeout(waitTime)` until
the deadline, or `running` in `await fn()` for the shifted entry. -/
inductive WorkStatus where
  | idle
  | sleeping (deadline : ℚ)
  | running (cur : Entry)
deriving DecidableEq

/-- The `rateLimiter` state, plus the ghost trace fields `dispatched` (ids
in dispatch order) and `settled` (settlements in delivery order). -/
structure RL where
  queue : List Entry
  status : WorkStatus
  lastRequest : ℚ
  backoff : ℚ
  dispatched : List Nat
  settled : List (Nat × Outcome)

/-- The initial `rateLimiter` object literal. -/
def RL.init : RL := ⟨[], .idle, 0, 1, [], []⟩

/-- One iteration of `while (this.queue.length > 0)`, entered at time `t`:
exit and clear `processing` on an empty queue; otherwise compute
`waitTime = max(0, lastRequest + minInterval * backoffMultiplier - now)` and
either suspend in `setTimeout`, or shift the head, set `lastRequest`, and
start `await fn()` (recording the dispatch). -/
def startLoop (t : ℚ) (s : RL) : RL :=
  match s.queue with
  | [] => { s with status := .idle }
  | e :: rest =>
    let waitTime := max 0 (s.lastRequest + minInterval * s.backoff - t)
    if waitTime > 0 then { s with status := .sleeping (t + waitTime) }
    else
      { s with queue := rest, status := .running e, lastRequest := t,
               dispatched := s.dispatched ++ [e.id] }

/-- `enqueue(fn, priority)` at time `t`: push, re-sort, call `processQueue`;
the loop is entered only when not already `processing`. -/
def enqueue (t : ℚ) (e : Entry) (s : RL) : RL :=
  let s2 := { s with queue := sortQueue (s.queue ++ [e]) }
  match s.status with
  | .idle => startLoop t s2
  | _ => s2

/-- The loop's `setTimeout` fires at time `t`: the loop resumes after the
`if (waitTime > 0)` and shifts the head of the (meanwhile possibly
re-sorted) queue. -/
def timerFire (t : ℚ) (s : RL) : RL :=
  match s.status, s.queue with
  | .sleeping _, e :: rest =>
    { s with queue := rest, status := .running e, lastRequest := t,
             dispatched := s.dispatched ++ [e.id] }
  | _, _ => s

/-- `await fn()` settles at time `t`: on success `backoffMultiplier` decays
(`max(1, b * 0.9)`) and the deferred resolves; on a RATE_LIMIT failure it
doubles bounded by `maxBackoff / minInterval` and the deferred rejects; any
other failure just rejects.  Then the `while` loop continues at `t`. -/
def complete (t : ℚ) (o : Outcome) (s : RL) : RL :=
  match s.status with
  | .running e =>
    let b :=
      match o with
      | .ok => max 1 (s.backoff * (9 / 10))
      | .err code =>
        if code = "RATE_LIMIT" then min (maxBackoff / minInterval) (s.backoff * 2)
        else s.backoff
    startLoop t { s with status := .idle, backoff := b,
                         settled := s.settled ++ [(e.id, o)] }
  | _ => s

/-- The states the rate limiter reaches from `RL.init`. -/
inductive Reachable : RL → Prop
  | init : Reachable RL.init
  | enq (t : ℚ) (e : Entry) (s : RL) : Reachable s → Reachable (enqueue t e s)
  | fire (t : ℚ) (s : RL) : Reachable s → Reachable (timerFire t s)
  | comp (t : ℚ) (o : Outcome) (s : RL) : Reachable s → Reachable (complete t o s)

lemma startLoop_backoff (t : ℚ) (s : RL) : (startLoop t s).backoff = s.backoff := by
  unfold startLoop
  cases hq : s.queue with
  | nil => rfl
  | cons e rest => dsimp only; split <;> rfl

lemma startLoop_settled (t : ℚ) (s : RL) : (startLoop t s).settled = s.settled := by
  unfold startLoop
  cases hq : s.queue with
  | nil => rfl
  | cons e rest => dsimp only; split <;> rfl

lemma enqueue_backoff (t : ℚ) (e : Entry) (s : RL) :
    (enqueue t e s).backoff = s.backoff := by
  unfold enqueue
  cases hst : s.status <;> simp [startLoop_backoff]

lemma timerFire_backoff (t : ℚ) (s : RL) : (timerFire t s).backoff = s.backoff := by
  unfold timerFire
  cases hst : s.status <;> cases hq : s.queue <;> rfl

lemma complete_backoff_ok (t : ℚ) (s : RL) (e : Entry)
    (hst : s.status = .running e) :
    (complete t .ok s).backoff = max 1 (s.backoff * (9 / 10)) := by
  unfold complete
  rw [hst]
  simp [startLoop_backoff]

lemma complete_backoff_rl (t : ℚ) (s : RL) (e : Entry)
    (hst : s.status = .running e) :
    (complete t (.err "RATE_LIMIT") s).backoff = min 50 (s.backoff * 2) := by
  unfold complete
  rw [hst]
  simp [startLoop_backoff]
  norm_num [maxBackoff, minInterval]

lemma complete_settled_rl (t : ℚ) (s : RL) (e : Entry)
    (hst : s.status = .running e) :
    (complete t (.err "RATE_LIMIT") s).settled =
      s.settled ++ [(e.id, .err "RATE_LIMIT")] := by
  unfold complete
  rw [hst]
  simp [startLoop_settled]

lemma complete_backoff_bounds (t : ℚ) (o : Outcome) (s : RL)
    (h : 1 ≤ s.backoff ∧ s.backoff ≤ 50) :
    1 ≤ (complete t o s).backoff ∧ (complete t o s).backoff ≤ 50 := by
  unfold complete
  cases hst : s.status with
  | idle => exact h
  | sleeping d => exact h
  | running e =>
    cases o with
    | ok =>
      simp only [startLoop_backoff]
      constructor
      · exact le_max_left _ _
      · exact max_le (by norm_num) (by linarith [h.2])
    | err code =>
      by_cases hc : code = "RATE_LIMIT"
      · simp only [hc, if_pos rfl, startLoop_backoff]
        have h50 : maxBackoff / minInterval = (50 : ℚ) := by
          norm_num [maxBackoff, minInterval]
        rw [h50]
        constructor
        · exact le_min (by norm_num) (by linarith [h.1])
        · exact min_le_left _ _
      · simp only [if_neg hc, startLoop_backoff]
        exact h

/-! ### Theorems for claim C4 -/

/-- C4: at every reachable state `1 <= backoffMultiplier <= 50`
(`= maxBackoff / minInterval = 60000 / 1200`); completing a dispatch
successfully multiplies it by 0.9 with floor 1, completing with a
RATE_LIMIT failure doubles it capped at 50, and a RATE_LIMIT failure is
still rejected through to the original enqueuing caller. -/
theorem backoff_invariant (s : RL) (h : Reachable s) :
    (1 ≤ s.backoff ∧ s.backoff ≤ 50) ∧
    (∀ t e, s.status = .running e →
      (complete t .ok s).backoff = max 1 (s.backoff * (9 / 10)) ∧
      (complete t (.err "RATE_LIMIT") s).backoff = min 50 (s.backoff * 2) ∧
      (complete t (.err "RATE_LIMIT") s).settled =
        s.settled ++ [(e.id, .err "RATE_LIMIT")]) := by
  have inv : 1 ≤ s.backoff ∧ s.backoff ≤ 50 := by
    induction h with
    | init => norm_num [RL.init]
    | enq t e s2 hs ih => rw [enqueue_backoff]; exact ih
    | fire t s2 hs ih => rw [timerFire_backoff]; exact ih
    | comp t o s2 hs ih => exact complete_backoff_bounds t o s2 ih
  exact ⟨inv, fun t e hst =>
    ⟨complete_backoff_ok t s e hst, complete_backoff_rl t s e hst,
     complete_settled_rl t s e hst⟩⟩

/-- Operation A of the C2 example (priority 0, enqueued first). -/
def entryA : Entry := ⟨0, 0⟩

/-- Operation B of the C2 example (priority 1, enqueued second). -/
def entryB : Entry := ⟨1, 1⟩

/-- Operation C of the C2 example (priority 0, enqueued third). -/
def entryC : Entry := ⟨2, 0⟩

/-- An earlier operation that keeps the worker busy in the amended C2
scenario. -/
def entryD : Entry := ⟨3, 0⟩

/-- Witness for C4 at the reachable state in which A has just been
dispatched: the bounds hold, and completions update the multiplier and
reject as stated. -/
theorem backoff_invariant_witness :
    (1 ≤ (enqueue 1000000 entryA RL.init).backoff ∧
      (enqueue 1000000 entryA RL.init).backoff ≤ 50) ∧
    ((complete 1000100 .ok (enqueue 1000000 entryA RL.init)).backoff =
        max 1 ((enqueue 1000000 entryA RL.init).backoff * (9 / 10)) ∧
      (complete 1000100 (.err "RATE_LIMIT") (enqueue 1000000 entryA RL.init)).backoff =
        min 50 ((enqueue 1000000 entryA RL.init).backoff * 2) ∧
      (complete 1000100 (.err "RATE_LIMIT") (enqueue 1000000 entryA RL.init)).settled =
        (enqueue 1000000 entryA RL.init).settled ++ [(entryA.id, .err "RATE_LIMIT")]) := by
  have h := backoff_invariant (enqueue 1000000 entryA RL.init)
    (Reachable.enq 1000000 entryA RL.init Reachable.init)
  exact ⟨h.1, h.2 1000100 entryA (by
    norm_num [enqueue, RL.init, startLoop, sortQueue, entryA, minInterval, max_def, prioGE])⟩

lemma startLoop_queue_sorted (t : ℚ) (s : RL) (h : s.queue.Sorted prioGE) :
    (startLoop t s).queue.Sorted prioGE := by
  unfold startLoop
  cases hq : s.queue with
  | nil => simp
  | cons e rest =>
    rw [hq] at h
    dsimp only
    split
    · simpa [hq] using h
    · simpa using h.of_cons

/-! ### Theorems for claim C2 -/

/-- Enqueue A(0), B(1), C(0) in one synchronous turn on the fresh idle
limiter, then let every operation succeed and every backoff timer fire. -/
def c2IdleRun : RL :=
  timerFire 1002400 (complete 1001300 .ok
    (timerFire 1001200 (complete 1000100 .ok
      (enqueue 1000000 entryC (enqueue 1000000 entryB
        (enqueue 1000000 entryA RL.init))))))

/-- C2 fails on the code: on an idle, unthrottled limiter the `async`
`processQueue` called inside `enqueue(A)` runs synchronously up to
`await fn()`, shifting and dispatching A before B and C are even pushed, so
enqueueing A(0), B(1), C(0) in one turn dispatches A, B, C — not B, A, C. -/
theorem queue_order_counterexample :
    c2IdleRun.dispatched = [entryA.id, entryB.id, entryC.id] ∧
    c2IdleRun.dispatched ≠ [entryB.id, entryA.id, entryC.id] := by
  have h : c2IdleRun.dispatched = [entryA.id, entryB.id, entryC.id] := by
    norm_num [c2IdleRun, enqueue, timerFire, complete, startLoop, RL.init, sortQueue,
      entryA, entryB, entryC, minInterval, maxBackoff, max_def, prioGE]
  refine ⟨h, ?_⟩
  rw [h]
  simp [entryA, entryB, entryC]

/-- A(0), B(1), C(0) enqueued in one turn while the worker is still busy
running an earlier operation D, then every operation succeeds and every
timer fires. -/
def c2BusyRun : RL :=
  complete 1003700 .ok (timerFire 1003600 (complete 1002500 .ok
    (timerFire 1002400 (complete 1001300 .ok
      (timerFire 1001200 (complete 1000100 .ok
        (enqueue 1000000 entryC (enqueue 1000000 entryB (enqueue 1000000 entryA
          (enqueue 1000000 entryD RL.init))))))))))

/-- C2 amended: the priority/FIFO dispatch order applies to the operations
that are pending in the queue together — the pending queue is sorted by
non-increasing priority at every reachable state, and A(0), B(1), C(0)
enqueued while an earlier operation D is in flight are dispatched in the
order B, A, C after D.  An operation enqueued while the loop is idle and
unthrottled is dispatched immediately instead, ahead of later enqueues. -/
theorem queue_order_amended :
    c2BusyRun.dispatched = [entryD.id, entryB.id, entryA.id, entryC.id] ∧
    (∀ s : RL, Reachable s → s.queue.Sorted prioGE) := by
  constructor
  · norm_num [c2BusyRun, enqueue, timerFire, complete, startLoop, RL.init, sortQueue,
      entryA, entryB, entryC, entryD, minInterval, maxBackoff, max_def, prioGE]
  · intro s h
    induction h with
    | init => simp [RL.init]
    | enq t e s2 hs ih =>
      unfold enqueue
      have hsort : (sortQueue (s2.queue ++ [e])).Sorted prioGE :=
        List.sorted_insertionSort _ _
      cases hst : s2.status with
      | idle => exact startLoop_queue_sorted _ _ (by simpa using hsort)
      | sleeping d => simpa using hsort
      | running e2 => simpa using hsort
    | fire t s2 hs ih =>
      unfold timerFire
      cases hst : s2.status <;> cases hq : s2.queue
      case sleeping.cons d e rest =>
        rw [hq] at ih
        exact ih.of_cons
      all_goals first
        | exact ih
        | (rw [hq] at ih; exact ih)
    | comp t o s2 hs ih =>
      unfold complete
      cases hst : s2.status with
      | idle => exact ih
      | sleeping d => exact ih
      | running e => exact startLoop_queue_sorted _ _ (by simpa using ih)

/-- Witness for the amended C2: the busy-scenario dispatch order holds, and
at the concrete reachable state with A, B pending while D runs, the
pending queue is sorted by non-increasing priority. -/
theorem queue_order_amended_witness :
    c2BusyRun.dispatched = [entryD.id, entryB.id, entryA.id, entryC.id] ∧
    (enqueue 1000000 entryB (enqueue 1000000 entryA
      (enqueue 1000000 entryD RL.init))).queue.Sorted prioGE :=
  ⟨queue_order_amended.1,
   queue_order_amended.2 _
     (Reachable.enq 1000000 entryB _ (Reachable.enq 1000000 entryA _
       (Reachable.enq 1000000 entryD _ Reachable.init)))⟩

/-! ### JSON property access and the normalizers -/

/-- Field lookup in a parsed JSON object. -/
def lookupField (fields : List (String × JSON)) (f : String) : Option JSON :=
  (fields.find? (fun p => p.1 == f)).map (fun p => p.2)

/-- The JS property access `v.f`: reading a property of `undefined`
(`none`) or of `null` throws a `TypeError`; on an object it yields the
field value or `undefined`; on any other primitive it yields `undefined`. -/
def getProp (v : Option JSON) (f : String) : Except JSErr (Option JSON) :=
  match v with
  | none => .error (.plain "TypeError" ("cannot read " ++ f ++ " of undefined"))
  | some .null => .error (.plain "TypeError" ("cannot read " ++ f ++ " of null"))
  | some (.obj fields) => .ok (lookupField fields f)
  | some _ => .ok none

/-- Calling an array method (`.slice(...)`, `.map(...)`) on a value: a
`TypeError` unless the receiver is an array.  (String receivers, which also
have `slice`, do not occur in the payloads the operations touch.) -/
def asElems (v : Option JSON) (method : String) : Except JSErr (List JSON) :=
  match v with
  | some (.arr elems) => .ok elems
  | _ => .error (.plain "TypeError" (method ++ " is not a function"))

/-- `array.map(callback)` where the callback may throw: the first exception
propagates. -/
def mapJS {α : Type} (f : JSON → Except JSErr α) : List JSON → Except JSErr (List α)
  | [] => .ok []
  | x :: xs => do
    let y ← f x
    let ys ← mapJS f xs
    return y :: ys

/-- The normalized shape produced by `searchCoins`; absent upstream fields
stay `undefined` (`none`). -/
structure CoinSummary where
  id : Option JSON
  name : Option JSON
  symbol : Option JSON
  thumb : Option JSON
  marketCapRank : Option JSON

/-- The per-coin arrow function inside `searchCoins`. -/
def normSearchCoin (coin : JSON) : Except JSErr CoinSummary := do
  let i ← getProp (some coin) "id"
  let n ← getProp (some coin) "name"
  let sy ← getProp (some coin) "symbol"
  let th ← getProp (some coin) "thumb"
  let mc ← getProp (some coin) "market_cap_rank"
  return ⟨i, n, sy, th, mc⟩

/-- `data.coins.slice(0, 10).map(coin => ...)` in `searchCoins`. -/
def normalizeSearch (data : JSON) : Except JSErr (List CoinSummary) := do
  let coinsField ← getProp (some data) "coins"
  let coins ← asElems coinsField "slice"
  mapJS normSearchCoin (coins.take 10)

/-- The normalized shape produced by `getCoinData`. -/
structure CoinDetail where
  id : Option JSON
  name : Option JSON
  symbol : Option JSON
  image : Option JSON
  currentPrice : Option JSON
  priceChange24h : Option JSON
  marketCap : Option JSON
  volume24h : Option JSON
  high24h : Option JSON
  low24h : Option JSON
  ath : Option JSON
  athDate : Option JSON
  circulatingSupply : Option JSON
  totalSupply : Option JSON

/-- A two-step property chain `data.f.g`. -/
def prop2 (data : JSON) (f g : String) : Except JSErr (Option JSON) := do
  let a ← getProp (some data) f
  getProp a g

/-- A three-step property chain `data.f.g.h`. -/
def prop3 (data : JSON) (f g h2 : String) : Except JSErr (Option JSON) := do
  let a ← getProp (some data) f
  let b ← getProp a g
  getProp b h2

/-- The result-object literal of `getCoinData`, field accesses in source
order. -/
def normalizeCoin (data : JSON) : Except JSErr CoinDetail := do
  let i ← getProp (some data) "id"
  let n ← getProp (some data) "name"
  let sy ← getProp (some data) "symbol"
  let img ← prop2 data "image" "large"
  let cp ← prop3 data "market_data" "current_price" "usd"
  let pc ← prop2 data "market_data" "price_change_percentage_24h"
  let mc ← prop3 data "market_data" "market_cap" "usd"
  let vol ← prop3 data "market_data" "total_volume" "usd"
  let hi ← prop3 data "market_data" "high_24h" "usd"
  let lo ← prop3 data "market_data" "low_24h" "usd"
  let a ← prop3 data "market_data" "ath" "usd"
  let ad ← prop3 data "market_data" "ath_date" "usd"
  let cs ← prop2 data "market_data" "circulating_supply"
  let ts ← prop2 data "market_data" "total_supply"
  return ⟨i, n, sy, img, cp, pc, mc, vol, hi, lo, a, ad, cs, ts⟩

/-- A chart point `{ time: Math.floor(timestamp / 1000), value: price }`. -/
structure PricePoint where
  time : Int
  value : Option JSON

/-- `([timestamp, price]) => ...` in `getPriceHistory`: destructuring a
non-array element throws; the timestamps of the `market_chart` payload are
numbers. -/
def normPricePoint (e : JSON) : Except JSErr PricePoint :=
  match e with
  | .arr (JSON.num ts :: rest) => .ok ⟨Rat.floor (ts / 1000), rest.head?⟩
  | .arr _ => .error (.plain "TypeError" "timestamp is not a number")
  | _ => .error (.plain "TypeError" "element is not iterable")

/-- `data.prices.map(([timestamp, price]) => ...)` in `getPriceHistory`. -/
def normalizeHistory (data : JSON) : Except JSErr (List PricePoint) := do
  let pricesField ← getProp (some data) "prices"
  let prices ← asElems pricesField "map"
  mapJS normPricePoint prices

/-- The normalized per-coin shape of `getTopMovers`. -/
structure MoverCoin where
  id : Option JSON
  name : Option JSON
  symbol : Option JSON
  image : Option JSON
  currentPrice : Option JSON
  priceChange24h : ℚ

/-- `coin.price_change_percentage_24h || 0`: the 24h change of the
`/coins/markets` payload is a number or `null`; any falsy value (absent,
`null`, `0`) falls back to 0. -/
def changeOrZero (v : Option JSON) : ℚ :=
  match v with
  | some (.num q) => q
  | _ => 0

/-- The per-coin arrow function inside `getTopMovers`. -/
def normMoverCoin (coin : JSON) : Except JSErr MoverCoin := do
  let i ← getProp (some coin) "id"
  let n ← getProp (some coin) "name"
  let sy ← getProp (some coin) "symbol"
  let img ← getProp (some coin) "image"
  let cp ← getProp (some coin) "current_price"
  let pc ← getProp (some coin) "price_change_percentage_24h"
  return ⟨i, n, sy, img, cp, changeOrZero pc⟩

/-- The comparator `(a, b) => b.priceChange24h - a.priceChange24h`: `a` may
precede `b` iff `b`'s 24h change does not exceed `a`'s. -/
def changeGE (a b : MoverCoin) : Prop := b.priceChange24h ≤ a.priceChange24h

instance : DecidableRel changeGE := fun a b =>
  inferInstanceAs (Decidable (b.priceChange24h ≤ a.priceChange24h))

instance : IsTotal MoverCoin changeGE :=
  ⟨fun a b => le_total b.priceChange24h a.priceChange24h⟩

instance : IsTrans MoverCoin changeGE := ⟨fun _ _ _ h1 h2 => le_trans h2 h1⟩

/-- `{ gainers, losers }` of `getTopMovers`. -/
structure MoversResult where
  gainers : List MoverCoin
  losers : List MoverCoin

/-- `[...coins].sort((a, b) => b.priceChange24h - a.priceChange24h)` (a
stable sort), then `gainers = sorted.slice(0, 5)` and
`losers = sorted.slice(-5).reverse()`. -/
def moversOf (coins : List MoverCoin) : MoversResult :=
  let sorted := coins.insertionSort changeGE
  ⟨sorted.take 5, (sorted.drop (sorted.length - 5)).reverse⟩

/-- `data.map(coin => ...)` and the gainers/losers split in `getTopMovers`. -/
def normalizeMovers (data : JSON) : Except JSErr MoversResult := do
  let elems ← asElems (some data) "map"
  let coins ← mapJS normMoverCoin elems
  return moversOf coins

/-! ### The domain operations -/

/-- The module-level cache, sliced per operation: the source keeps one
store whose keys are disjoint by prefix (`search:`, `coin:`, `history:`,
`movers`, `prices:`), so each operation's slice is typed separately. -/
structure AppState where
  searchCache : CacheStore (List CoinSummary)
  coinCache : CacheStore CoinDetail
  historyCache : CacheStore (List PricePoint)
  moversCache : CacheStore MoversResult
  pricesCache : CacheStore JSON

/-- The state with an empty cache. -/
def AppState.empty : AppState :=
  ⟨cacheEmpty, cacheEmpty, cacheEmpty, cacheEmpty, cacheEmpty⟩

/-- The observable outcome of one domain-operation call: the value
returned or the error delivered to the caller, the state afterwards,
whether the request queue was used, and the number of `fetchWithRetry`
invocations issued. -/
structure OpRun (α : Type) where
  result : Except JSErr α
  state : AppState
  usedQueue : Bool
  fetches : Nat

/-- `searchCoins(query)` at time `now`, the upstream `/search` endpoint
behaving as `server`. -/
def searchCoins (now : ℚ) (server : Nat → FetchOutcome) (query : String)
    (st : AppState) : OpRun (List CoinSummary) :=
  match cget st.searchCache ("search:" ++ query.toLower) now with
  | (some v, sc) => ⟨.ok v, { st with searchCache := sc }, false, 0⟩
  | (none, sc) =>
    match (fetchWithRetry server "coin search" 2).result with
    | .error e => ⟨.error e, { st with searchCache := sc }, true, 1⟩
    | .ok data =>
      match normalizeSearch data with
      | .error e => ⟨.error e, { st with searchCache := sc }, true, 1⟩
      | .ok results =>
        ⟨.ok results,
         { st with
            searchCache := cset sc ("search:" ++ query.toLower) results 300000 now },
         true, 1⟩

/-- `getCoinData(coinId)` at time `now` (enqueued at priority 1). -/
def getCoinData (now : ℚ) (server : Nat → FetchOutcome) (coinId : String)
    (st : AppState) : OpRun CoinDetail :=
  match cget st.coinCache ("coin:" ++ coinId) now with
  | (some v, cc) => ⟨.ok v, { st with coinCache := cc }, false, 0⟩
  | (none, cc) =>
    match (fetchWithRetry server "coin details" 2).result with
    | .error e => ⟨.error e, { st with coinCache := cc }, true, 1⟩
    | .ok data =>
      match normalizeCoin data with
      | .error e => ⟨.error e, { st with coinCache := cc }, true, 1⟩
      | .ok result =>
        ⟨.ok result,
         { st with coinCache := cset cc ("coin:" ++ coinId) result 60000 now },
         true, 1⟩

/-- `days <= 7 ? 60000 : days <= 30 ? 300000 : 600000`. -/
def historyTTL (days : Nat) : ℚ :=
  if days ≤ 7 then 60000 else if days ≤ 30 then 300000 else 600000

/-- `getPriceHistory(coinId, days)` at time `now` (priority 1). -/
def getPriceHistory (now : ℚ) (server : Nat → FetchOutcome) (coinId : String)
    (days : Nat) (st : AppState) : OpRun (List PricePoint) :=
  match cget st.historyCache ("history:" ++ coinId ++ ":" ++ toString days) now with
  | (some v, hc) => ⟨.ok v, { st with historyCache := hc }, false, 0⟩
  | (none, hc) =>
    match (fetchWithRetry server "price history" 2).result with
    | .error e => ⟨.error e, { st with historyCache := hc }, true, 1⟩
    | .ok data =>
      match normalizeHistory data with
      | .error e => ⟨.error e, { st with historyCache := hc }, true, 1⟩
      | .ok result =>
        ⟨.ok result,
         { st with
            historyCache := cset hc ("history:" ++ coinId ++ ":" ++ toString days)
              result (historyTTL days) now },
         true, 1⟩

/-- `getTopMovers()` at time `now`. -/
def getTopMovers (now : ℚ) (server : Nat → FetchOutcome)
    (st : AppState) : OpRun MoversResult :=
  match cget st.moversCache "movers" now with
  | (some v, mc) => ⟨.ok v, { st with moversCache := mc }, false, 0⟩
  | (none, mc) =>
    match (fetchWithRetry server "market data" 2).result with
    | .error e => ⟨.error e, { st with moversCache := mc }, true, 1⟩
    | .ok data =>
      match normalizeMovers data with
      | .error e => ⟨.error e, { st with moversCache := mc }, true, 1⟩
      | .ok result =>
        ⟨.ok result,
         { st with moversCache := cset mc "movers" result 120000 now }, true, 1⟩

/-- Lexicographic comparison of character sequences: the ECMAScript
default-sort order on strings (code-unit comparison). -/
def cuLE : List Char → List Char → Bool
  | [], _ => true
  | _ :: _, [] => false
  | a :: as, b :: bs =>
    if a < b then true else if b < a then false else cuLE as bs

/-- The ECMAScript default-sort order on strings. -/
def idLE (a b : String) : Prop := cuLE a.data b.data = true

instance : DecidableRel idLE := fun a b =>
  inferInstanceAs (Decidable (cuLE a.data b.data = true))

/-- `coinIds.sort()`: the ECMAScript default sort, in place and stable,
comparing strings by code units; it both produces the array used for the
key and mutates the caller's array. -/
def sortIds (ids : List String) : List String :=
  ids.insertionSort idLE

/-- The outcome of a `getSimplePrices` call; `idsAfter` is the content of
the caller's array after the call (the in-place sort made it the sorted
permutation). -/
structure SPRun where
  result : Except JSErr JSON
  state : AppState
  usedQueue : Bool
  fetches : Nat
  idsAfter : List String

/-- The queue-and-fetch tail of `getSimplePrices`, entered when the cached
value is absent or falsy; the raw payload is cached for 60 000 ms. -/
def spMiss (now : ℚ) (server : Nat → FetchOutcome) (key : String)
    (sorted : List String) (st : AppState) : SPRun :=
  match (fetchWithRetry server "watchlist prices" 2).result with
  | .error e => ⟨.error e, st, true, 1, sorted⟩
  | .ok data =>
    ⟨.ok data, { st with pricesCache := cset st.pricesCache key data 60000 now },
     true, 1, sorted⟩

/-- `getSimplePrices(coinIds)` at time `now`: an empty input returns `{}`
at once; otherwise `coinIds.sort()` sorts the caller's array in place and
the cache key is the sorted ids joined with commas. -/
def getSimplePrices (now : ℚ) (server : Nat → FetchOutcome)
    (coinIds : List String) (st : AppState) : SPRun :=
  if coinIds = [] then ⟨.ok (.obj []), st, false, 0, coinIds⟩
  else
    match cget st.pricesCache ("prices:" ++ String.intercalate "," (sortIds coinIds)) now with
    | (some v, pc) =>
      if jsTruthy v then
        ⟨.ok v, { st with pricesCache := pc }, false, 0, sortIds coinIds⟩
      else
        spMiss now server ("prices:" ++ String.intercalate "," (sortIds coinIds))
          (sortIds coinIds) { st with pricesCache := pc }
    | (none, pc) =>
      spMiss now server ("prices:" ++ String.intercalate "," (sortIds coinIds))
        (sortIds coinIds) { st with pricesCache := pc }

/-! ### Helper lemmas about the embedding -/

lemma except_bind_ok {ε α β : Type} (a : α) (f : α → Except ε β) :
    (Except.ok a >>= f) = f a := rfl

lemma except_bind_error {ε α β : Type} (e : ε) (f : α → Except ε β) :
    ((Except.error e : Except ε α) >>= f) = .error e := rfl

lemma except_map_ok {ε α β : Type} (g : α → β) (a : α) :
    (g <$> (Except.ok a : Except ε α)) = .ok (g a) := rfl

lemma except_map_error {ε α β : Type} (g : α → β) (e : ε) :
    (g <$> (Except.error e : Except ε α)) = .error e := rfl

lemma except_pure_eq {ε α : Type} (a : α) : (pure a : Except ε α) = .ok a := rfl

lemma mapJS_length {α : Type} (f : JSON → Except JSErr α) :
    ∀ (l : List JSON) (ys : List α), mapJS f l = .ok ys → ys.length = l.length
  | [], ys, h => by
    simp only [mapJS] at h
    cases h
    rfl
  | x :: xs, ys, h => by
    simp only [mapJS] at h
    cases hfx : f x with
    | error e => rw [hfx, except_bind_error] at h; simp at h
    | ok y =>
      rw [hfx, except_bind_ok] at h
      cases hrec : mapJS f xs with
      | error e =>
        rw [hrec, except_bind_error] at h
        simp at h
      | ok zs =>
        rw [hrec, except_bind_ok, except_pure_eq] at h
        cases h
        simp [mapJS_length f xs zs hrec]

lemma cget_cset_self {α : Type} (s : CacheStore α) (k : String) (v : α)
    (ttl t0 t : ℚ) (h : t ≤ t0 + ttl) :
    cget (cset s k v ttl t0) k t = (some v, cset s k v ttl t0) := by
  have hk : cset s k v ttl t0 k = some ⟨v, t0 + ttl⟩ := by simp [cset]
  have hnot : ¬ (t > t0 + ttl) := not_lt.mpr h
  simp [cget, hk, hnot]

/-! ### Theorems for claim C10 -/

/-- C10: `searchCoins` returns at most 10 records: only the first 10 coins
of the upstream search payload are normalized, returned, and cached; any
further coins do not influence the result. -/
theorem searchCoins_first10 :
    (∀ data res, normalizeSearch data = .ok res → res.length ≤ 10) ∧
    (∀ coins extra, 10 ≤ coins.length →
      normalizeSearch (.obj [("coins", .arr (coins ++ extra))]) =
        normalizeSearch (.obj [("coins", .arr coins)])) ∧
    (∀ now server query st data res, server 0 = .success data →
      (cget st.searchCache ("search:" ++ query.toLower) now).1 = none →
      normalizeSearch data = .ok res →
      (searchCoins now server query st).result = .ok res ∧
      (searchCoins now server query st).state.searchCache
        ("search:" ++ query.toLower) = some ⟨res, now + 300000⟩) := by
  refine ⟨fun data res h => ?_, fun coins extra h => ?_,
    fun now server query st data res hsrv hmiss hnorm => ?_⟩
  · unfold normalizeSearch at h
    cases hp : getProp (some data) "coins" with
    | error e => rw [hp, except_bind_error] at h; simp at h
    | ok cf =>
      rw [hp, except_bind_ok] at h
      cases ha : asElems cf "slice" with
      | error e => rw [ha, except_bind_error] at h; simp at h
      | ok coins =>
        rw [ha, except_bind_ok] at h
        calc res.length = (coins.take 10).length := mapJS_length _ _ _ h
          _ ≤ 10 := by simp
  · unfold normalizeSearch
    have hlook : ∀ l : List JSON,
        getProp (some (.obj [("coins", .arr l)])) "coins" = .ok (some (.arr l)) :=
      fun l => rfl
    have hae : ∀ l : List JSON, asElems (some (.arr l)) "slice" = .ok l :=
      fun l => rfl
    rw [hlook, hlook, except_bind_ok, except_bind_ok, hae, hae,
      except_bind_ok, except_bind_ok, List.take_append_of_le_length h]
  · unfold searchCoins
    rcases hg : cget st.searchCache ("search:" ++ query.toLower) now with ⟨hit, sc⟩
    rw [hg] at hmiss
    simp only at hmiss
    subst hmiss
    have hfr : (fetchWithRetry server "coin search" 2).result = .ok data := by
      rw [fetchWithRetry, fetchLoop, hsrv]
    dsimp only
    rw [hfr]
    dsimp only
    rw [hnorm]
    exact ⟨rfl, by simp [cset]⟩

/-- An upstream search payload with 11 coins. -/
def searchPayload11 : JSON :=
  .obj [("coins", .arr (List.replicate 11 (JSON.obj [("id", .str "x")])))]

/-- The expected normalization of `searchPayload11`: only 10 records. -/
def searchRes10 : List CoinSummary :=
  List.replicate 10 ⟨some (.str "x"), none, none, none, none⟩

/-- The `/search` endpoint answering `searchPayload11`. -/
def srvSearch11 : Nat → FetchOutcome := fun _ => .success searchPayload11

/-- Witness for C10 at an 11-coin payload: 10 records are returned and
cached, and an appended eleventh coin does not change the result. -/
theorem searchCoins_first10_witness :
    searchRes10.length ≤ 10 ∧
    normalizeSearch (.obj [("coins",
        .arr (List.replicate 10 (JSON.obj [("id", .str "x")]) ++
          [JSON.obj [("id", .str "y")]]))]) =
      normalizeSearch (.obj [("coins",
        .arr (List.replicate 10 (JSON.obj [("id", .str "x")])))]) ∧
    (searchCoins 1000 srvSearch11 "btc" AppState.empty).result = .ok searchRes10 ∧
    (searchCoins 1000 srvSearch11 "btc" AppState.empty).state.searchCache
      ("search:" ++ "btc".toLower) = some ⟨searchRes10, 1000 + 300000⟩ := by
  have h := searchCoins_first10.2.2 1000 srvSearch11 "btc" AppState.empty
    searchPayload11 searchRes10 rfl rfl rfl
  exact ⟨searchCoins_first10.1 searchPayload11 searchRes10 rfl,
    searchCoins_first10.2.1 _ _ (by simp), h.1, h.2⟩

lemma cuLE_cons (a b : Char) (as bs : List Char) :
    cuLE (a :: as) (b :: bs) =
      if a < b then true else if b < a then false else cuLE as bs := rfl

lemma cuLE_cons_iff (a b : Char) (as bs : List Char) :
    cuLE (a :: as) (b :: bs) = true ↔ a < b ∨ (a = b ∧ cuLE as bs = true) := by
  rw [cuLE_cons]
  rcases lt_trichotomy a b with h | h | h
  · simp [h]
  · subst h
    simp [lt_irrefl]
  · have h1 : ¬ a < b := lt_asymm h
    simp [h1, h, h.ne']

lemma cuLE_total : ∀ x y : List Char, cuLE x y = true ∨ cuLE y x = true
  | [], _ => Or.inl rfl
  | _ :: _, [] => Or.inr rfl
  | a :: as, b :: bs => by
    rcases lt_trichotomy a b with h | h | h
    · exact Or.inl ((cuLE_cons_iff a b as bs).2 (Or.inl h))
    · subst h
      rcases cuLE_total as bs with h2 | h2
      · exact Or.inl ((cuLE_cons_iff a a as bs).2 (Or.inr ⟨rfl, h2⟩))
      · exact Or.inr ((cuLE_cons_iff a a bs as).2 (Or.inr ⟨rfl, h2⟩))
    · exact Or.inr ((cuLE_cons_iff b a bs as).2 (Or.inl h))

lemma cuLE_trans :
    ∀ x y z : List Char, cuLE x y = true → cuLE y z = true → cuLE x z = true
  | [], _, _, _, _ => rfl
  | _ :: _, [], _, h1, _ => by simp [cuLE] at h1
  | _ :: _, _ :: _, [], _, h2 => by simp [cuLE] at h2
  | a :: as, b :: bs, c :: cs, h1, h2 => by
    rcases (cuLE_cons_iff a b as bs).1 h1 with hab | ⟨hab, ht1⟩
    · rcases (cuLE_cons_iff b c bs cs).1 h2 with hbc | ⟨hbc, _⟩
      · exact (cuLE_cons_iff a c as cs).2 (Or.inl (lt_trans hab hbc))
      · exact (cuLE_cons_iff a c as cs).2 (Or.inl (hbc ▸ hab))
    · subst hab
      rcases (cuLE_cons_iff a c bs cs).1 h2 with hac | ⟨hac, ht2⟩
      · exact (cuLE_cons_iff a c as cs).2 (Or.inl hac)
      · exact (cuLE_cons_iff a c as cs).2
          (Or.inr ⟨hac, cuLE_trans as bs cs ht1 ht2⟩)

lemma cuLE_antisymm : ∀ x y : List Char, cuLE x y = true → cuLE y x = true → x = y
  | [], [], _, _ => rfl
  | [], _ :: _, _, h2 => by simp [cuLE] at h2
  | _ :: _, [], h1, _ => by simp [cuLE] at h1
  | a :: as, b :: bs, h1, h2 => by
    rcases (cuLE_cons_iff a b as bs).1 h1 with h | ⟨he, ht⟩
    · rcases (cuLE_cons_iff b a bs as).1 h2 with h' | ⟨he', _⟩
      · exact absurd h' (lt_asymm h)
      · exact absurd (he' ▸ h) (lt_irrefl b)
    · rcases (cuLE_cons_iff b a bs as).1 h2 with h' | ⟨_, ht'⟩
      · exact absurd (he ▸ h') (lt_irrefl a)
      · rw [he, cuLE_antisymm as bs ht ht']

instance : IsTotal String idLE := ⟨fun a b => cuLE_total a.data b.data⟩

instance : IsTrans String idLE := ⟨fun a b c => cuLE_trans a.data b.data c.data⟩

instance : IsAntisymm String idLE :=
  ⟨fun a b h1 h2 => by
    cases a with
    | mk da =>
      cases b with
      | mk db => exact congrArg String.mk (cuLE_antisymm da db h1 h2)⟩

/-! ### Theorems for claim C9 -/

/-- C9: `getSimplePrices` sorts the caller's id array in place to compute
its cache key: after any call with a non-empty list the caller's array is
the sorted permutation of what was passed in, and the cache key is the same
for any two id lists containing the same ids in any order. -/
theorem getSimplePrices_inplace_sort :
    (∀ now server ids st, ids ≠ [] →
      (getSimplePrices now server ids st).idsAfter = sortIds ids ∧
      List.Sorted idLE (sortIds ids) ∧
      (sortIds ids).Perm ids) ∧
    (∀ ids1 ids2 : List String, ids1.Perm ids2 →
      "prices:" ++ String.intercalate "," (sortIds ids1) =
        "prices:" ++ String.intercalate "," (sortIds ids2)) ∧
    sortIds ["eth", "btc"] = ["btc", "eth"] := by
  refine ⟨fun now server ids st hne => ⟨?_, List.sorted_insertionSort _ _,
      List.perm_insertionSort _ _⟩, fun ids1 ids2 h => ?_, ?_⟩
  · unfold getSimplePrices
    rw [if_neg hne]
    rcases cget st.pricesCache ("prices:" ++ String.intercalate "," (sortIds ids)) now
      with ⟨hit, pc⟩
    cases hit with
    | some v =>
      by_cases htr : jsTruthy v
      · simp [htr]
      · simp only [htr]
        unfold spMiss
        cases (fetchWithRetry server "watchlist prices" 2).result <;> simp
    | none =>
      unfold spMiss
      cases (fetchWithRetry server "watchlist prices" 2).result <;> simp
  · have hp : (sortIds ids1).Perm (sortIds ids2) :=
      ((List.perm_insertionSort _ ids1).trans h).trans
        (List.perm_insertionSort _ ids2).symm
    have he : sortIds ids1 = sortIds ids2 :=
      List.eq_of_perm_of_sorted hp (List.sorted_insertionSort _ _)
        (List.sorted_insertionSort _ _)
    rw [he]
  · decide

/-- Witness for C9: a concrete call leaves the caller's array sorted, and
two orderings of the same ids produce the same key. -/
theorem getSimplePrices_inplace_sort_witness :
    ((getSimplePrices 1000 (fun _ => .httpStatus 503) ["eth", "btc"]
        AppState.empty).idsAfter = sortIds ["eth", "btc"] ∧
      List.Sorted idLE (sortIds ["eth", "btc"]) ∧
      (sortIds ["eth", "btc"]).Perm ["eth", "btc"]) ∧
    sortIds ["eth", "btc"] = ["btc", "eth"] ∧
    "prices:" ++ String.intercalate "," (sortIds ["eth", "btc"]) =
      "prices:" ++ String.intercalate "," (sortIds ["btc", "eth"]) :=
  ⟨getSimplePrices_inplace_sort.1 1000 (fun _ => .httpStatus 503) ["eth", "btc"]
      AppState.empty (by simp),
   getSimplePrices_inplace_sort.2.2,
   getSimplePrices_inplace_sort.2.1 ["eth", "btc"] ["btc", "eth"]
      (List.Perm.swap "btc" "eth" [])⟩

/-! ### Theorems for claim C5 -/

lemma searchCoins_cached (now1 now2 : ℚ) (srv1 srv2 : Nat → FetchOutcome)
    (query : String) (st : AppState) (res : List CoinSummary) (st1 : AppState)
    (h1 : searchCoins now1 srv1 query st = ⟨.ok res, st1, true, 1⟩)
    (ht : now2 ≤ now1 + 300000) :
    st1.searchCache ("search:" ++ query.toLower) = some ⟨res, now1 + 300000⟩ ∧
    searchCoins now2 srv2 query st1 = ⟨.ok res, st1, false, 0⟩ := by
  unfold searchCoins at h1
  rcases hg : cget st.searchCache ("search:" ++ query.toLower) now1 with ⟨hit, sc⟩
  rw [hg] at h1
  cases hit with
  | some v => simp at h1
  | none =>
    dsimp only at h1
    cases hf : (fetchWithRetry srv1 "coin search" 2).result with
    | error e => rw [hf] at h1; simp at h1
    | ok data =>
      rw [hf] at h1
      dsimp only at h1
      cases hn : normalizeSearch data with
      | error e => rw [hn] at h1; simp at h1
      | ok results =>
        rw [hn] at h1
        dsimp only at h1
        simp only [OpRun.mk.injEq, Except.ok.injEq] at h1
        obtain ⟨hres, hst, -, -⟩ := h1
        subst hres
        subst hst
        constructor
        · simp [cset]
        · unfold searchCoins
          have hc : cget ({ st with
              searchCache := cset sc ("search:" ++ query.toLower) results 300000 now1
            } : AppState).searchCache ("search:" ++ query.toLower) now2 =
              (some results, cset sc ("search:" ++ query.toLower) results 300000 now1) := by
            exact cget_cset_self sc _ results 300000 now1 now2 ht
          rw [hc]

lemma getCoinData_cached (now1 now2 : ℚ) (srv1 srv2 : Nat → FetchOutcome)
    (coinId : String) (st : AppState) (res : CoinDetail) (st1 : AppState)
    (h1 : getCoinData now1 srv1 coinId st = ⟨.ok res, st1, true, 1⟩)
    (ht : now2 ≤ now1 + 60000) :
    st1.coinCache ("coin:" ++ coinId) = some ⟨res, now1 + 60000⟩ ∧
    getCoinData now2 srv2 coinId st1 = ⟨.ok res, st1, false, 0⟩ := by
  unfold getCoinData at h1
  rcases hg : cget st.coinCache ("coin:" ++ coinId) now1 with ⟨hit, cc⟩
  rw [hg] at h1
  cases hit with
  | some v => simp at h1
  | none =>
    dsimp only at h1
    cases hf : (fetchWithRetry srv1 "coin details" 2).result with
    | error e => rw [hf] at h1; simp at h1
    | ok data =>
      rw [hf] at h1
      dsimp only at h1
      cases hn : normalizeCoin data with
      | error e => rw [hn] at h1; simp at h1
      | ok result =>
        rw [hn] at h1
        dsimp only at h1
        simp only [OpRun.mk.injEq, Except.ok.injEq] at h1
        obtain ⟨hres, hst, -, -⟩ := h1
        subst hres
        subst hst
        constructor
        · simp [cset]
        · unfold getCoinData
          have hc : cget ({ st with
              coinCache := cset cc ("coin:" ++ coinId) result 60000 now1
            } : AppState).coinCache ("coin:" ++ coinId) now2 =
              (some result, cset cc ("coin:" ++ coinId) result 60000 now1) := by
            exact cget_cset_self cc _ result 60000 now1 now2 ht
          rw [hc]

lemma getPriceHistory_cached (now1 now2 : ℚ) (srv1 srv2 : Nat → FetchOutcome)
    (coinId : String) (days : Nat) (st : AppState) (res : List PricePoint)
    (st1 : AppState)
    (h1 : getPriceHistory now1 srv1 coinId days st = ⟨.ok res, st1, true, 1⟩)
    (ht : now2 ≤ now1 + historyTTL days) :
    st1.historyCache ("history:" ++ coinId ++ ":" ++ toString days) =
      some ⟨res, now1 + historyTTL days⟩ ∧
    getPriceHistory now2 srv2 coinId days st1 = ⟨.ok res, st1, false, 0⟩ := by
  unfold getPriceHistory at h1
  rcases hg : cget st.historyCache ("history:" ++ coinId ++ ":" ++ toString days) now1
    with ⟨hit, hc2⟩
  rw [hg] at h1
  cases hit with
  | some v => simp at h1
  | none =>
    dsimp only at h1
    cases hf : (fetchWithRetry srv1 "price history" 2).result with
    | error e => rw [hf] at h1; simp at h1
    | ok data =>
      rw [hf] at h1
      dsimp only at h1
      cases hn : normalizeHistory data with
      | error e => rw [hn] at h1; simp at h1
      | ok result =>
        rw [hn] at h1
        dsimp only at h1
        simp only [OpRun.mk.injEq, Except.ok.injEq] at h1
        obtain ⟨hres, hst, -, -⟩ := h1
        subst hres
        subst hst
        constructor
        · simp [cset]
        · unfold getPriceHistory
          have hc : cget ({ st with
              historyCache := cset hc2 ("history:" ++ coinId ++ ":" ++ toString days)
                result (historyTTL days) now1
            } : AppState).historyCache ("history:" ++ coinId ++ ":" ++ toString days)
              now2 =
              (some result, cset hc2 ("history:" ++ coinId ++ ":" ++ toString days)
                result (historyTTL days) now1) := by
            exact cget_cset_self hc2 _ result (historyTTL days) now1 now2 ht
          rw [hc]

lemma getTopMovers_cached (now1 now2 : ℚ) (srv1 srv2 : Nat → FetchOutcome)
    (st : AppState) (res : MoversResult) (st1 : AppState)
    (h1 : getTopMovers now1 srv1 st = ⟨.ok res, st1, true, 1⟩)
    (ht : now2 ≤ now1 + 120000) :
    st1.moversCache "movers" = some ⟨res, now1 + 120000⟩ ∧
    getTopMovers now2 srv2 st1 = ⟨.ok res, st1, false, 0⟩ := by
  unfold getTopMovers at h1
  rcases hg : cget st.moversCache "movers" now1 with ⟨hit, mc⟩
  rw [hg] at h1
  cases hit with
  | some v => simp at h1
  | none =>
    dsimp only at h1
    cases hf : (fetchWithRetry srv1 "market data" 2).result with
    | error e => rw [hf] at h1; simp at h1
    | ok data =>
      rw [hf] at h1
      dsimp only at h1
      cases hn : normalizeMovers data with
      | error e => rw [hn] at h1; simp at h1
      | ok result =>
        rw [hn] at h1
        dsimp only at h1
        simp only [OpRun.mk.injEq, Except.ok.injEq] at h1
        obtain ⟨hres, hst, -, -⟩ := h1
        subst hres
        subst hst
        constructor
        · simp [cset]
        · unfold getTopMovers
          have hc : cget ({ st with
              moversCache := cset mc "movers" result 120000 now1
            } : AppState).moversCache "movers" now2 =
              (some result, cset mc "movers" result 120000 now1) := by
            exact cget_cset_self mc _ result 120000 now1 now2 ht
          rw [hc]

lemma spMiss_cached (now1 now2 : ℚ) (srv1 srv2 : Nat → FetchOutcome)
    (ids : List String) (st2 : AppState) (res : JSON) (st1 : AppState)
    (ia : List String)
    (h1 : spMiss now1 srv1 ("prices:" ++ String.intercalate "," (sortIds ids))
      (sortIds ids) st2 = ⟨.ok res, st1, true, 1, ia⟩)
    (htr : jsTruthy res = true) (ht : now2 ≤ now1 + 60000) (hne : ids ≠ []) :
    getSimplePrices now2 srv2 ids st1 = ⟨.ok res, st1, false, 0, ia⟩ := by
  unfold spMiss at h1
  cases hf : (fetchWithRetry srv1 "watchlist prices" 2).result with
  | error e => rw [hf] at h1; simp at h1
  | ok data =>
    rw [hf] at h1
    dsimp only at h1
    simp only [SPRun.mk.injEq, Except.ok.injEq] at h1
    obtain ⟨hres, hst, -, -, hia⟩ := h1
    subst hres
    subst hst
    subst hia
    unfold getSimplePrices
    rw [if_neg hne]
    have hc : cget ({ st2 with
        pricesCache := cset st2.pricesCache
          ("prices:" ++ String.intercalate "," (sortIds ids)) data 60000 now1
      } : AppState).pricesCache
        ("prices:" ++ String.intercalate "," (sortIds ids)) now2 =
        (some data, cset st2.pricesCache
          ("prices:" ++ String.intercalate "," (sortIds ids)) data 60000 now1) :=
      cget_cset_self st2.pricesCache _ data 60000 now1 now2 ht
    rw [hc]
    dsimp only
    rw [if_pos htr]

lemma getSimplePrices_cached (now1 now2 : ℚ) (srv1 srv2 : Nat → FetchOutcome)
    (ids : List String) (st : AppState) (res : JSON) (st1 : AppState)
    (ia : List String)
    (h1 : getSimplePrices now1 srv1 ids st = ⟨.ok res, st1, true, 1, ia⟩)
    (htr : jsTruthy res = true) (ht : now2 ≤ now1 + 60000) :
    getSimplePrices now2 srv2 ids st1 = ⟨.ok res, st1, false, 0, ia⟩ := by
  unfold getSimplePrices at h1
  by_cases hne : ids = []
  · rw [if_pos hne] at h1
    simp at h1
  · rw [if_neg hne] at h1
    rcases hg : cget st.pricesCache
      ("prices:" ++ String.intercalate "," (sortIds ids)) now1 with ⟨hit, pc⟩
    rw [hg] at h1
    cases hit with
    | some v =>
      dsimp only at h1
      by_cases htv : jsTruthy v
      · rw [if_pos htv] at h1
        simp at h1
      · rw [if_neg htv] at h1
        exact spMiss_cached now1 now2 srv1 srv2 ids _ res st1 ia h1 htr ht hne
    | none =>
      dsimp only at h1
      exact spMiss_cached now1 now2 srv1 srv2 ids _ res st1 ia h1 htr ht hne

/-- C5: for every domain operation, two successive calls with identical
arguments within the operation's TTL window issue at most one upstream
fetch: a first call that went to the network and succeeded writes the cache
entry, and the second call is served from the cache — no queue use and no
fetch. -/
theorem domain_ops_cache_once :
    (∀ now1 now2 srv1 srv2 query st res st1,
      searchCoins now1 srv1 query st = ⟨.ok res, st1, true, 1⟩ →
      now2 ≤ now1 + 300000 →
      st1.searchCache ("search:" ++ query.toLower) = some ⟨res, now1 + 300000⟩ ∧
      searchCoins now2 srv2 query st1 = ⟨.ok res, st1, false, 0⟩) ∧
    (∀ now1 now2 srv1 srv2 coinId st res st1,
      getCoinData now1 srv1 coinId st = ⟨.ok res, st1, true, 1⟩ →
      now2 ≤ now1 + 60000 →
      st1.coinCache ("coin:" ++ coinId) = some ⟨res, now1 + 60000⟩ ∧
      getCoinData now2 srv2 coinId st1 = ⟨.ok res, st1, false, 0⟩) ∧
    (∀ now1 now2 srv1 srv2 coinId days st res st1,
      getPriceHistory now1 srv1 coinId days st = ⟨.ok res, st1, true, 1⟩ →
      now2 ≤ now1 + historyTTL days →
      st1.historyCache ("history:" ++ coinId ++ ":" ++ toString days) =
        some ⟨res, now1 + historyTTL days⟩ ∧
      getPriceHistory now2 srv2 coinId days st1 = ⟨.ok res, st1, false, 0⟩) ∧
    (∀ now1 now2 srv1 srv2 st res st1,
      getTopMovers now1 srv1 st = ⟨.ok res, st1, true, 1⟩ →
      now2 ≤ now1 + 120000 →
      st1.moversCache "movers" = some ⟨res, now1 + 120000⟩ ∧
      getTopMovers now2 srv2 st1 = ⟨.ok res, st1, false, 0⟩) ∧
    (∀ now1 now2 srv1 srv2 ids st res st1 ia,
      getSimplePrices now1 srv1 ids st = ⟨.ok res, st1, true, 1, ia⟩ →
      jsTruthy res = true →
      now2 ≤ now1 + 60000 →
      getSimplePrices now2 srv2 ids st1 = ⟨.ok res, st1, false, 0, ia⟩) :=
  ⟨fun now1 now2 srv1 srv2 query st res st1 h1 ht =>
      searchCoins_cached now1 now2 srv1 srv2 query st res st1 h1 ht,
   fun now1 now2 srv1 srv2 coinId st res st1 h1 ht =>
      getCoinData_cached now1 now2 srv1 srv2 coinId st res st1 h1 ht,
   fun now1 now2 srv1 srv2 coinId days st res st1 h1 ht =>
      getPriceHistory_cached now1 now2 srv1 srv2 coinId days st res st1 h1 ht,
   fun now1 now2 srv1 srv2 st res st1 h1 ht =>
      getTopMovers_cached now1 now2 srv1 srv2 st res st1 h1 ht,
   fun now1 now2 srv1 srv2 ids st res st1 ia h1 htr ht =>
      getSimplePrices_cached now1 now2 srv1 srv2 ids st res st1 ia h1 htr ht⟩

/-- A `/search` endpoint answering an empty coin list. -/
def srvSearchOk : Nat → FetchOutcome := fun _ => .success (.obj [("coins", .arr [])])

/-- A well-formed `/coins/{id}` payload. -/
def coinPayload : JSON :=
  .obj [("id", .str "bitcoin"), ("name", .str "Bitcoin"), ("symbol", .str "btc"),
        ("image", .obj [("large", .str "img")]),
        ("market_data", .obj
          [("current_price", .obj [("usd", .num 50000)]),
           ("price_change_percentage_24h", .num 2),
           ("market_cap", .obj [("usd", .num 1000000)]),
           ("total_volume", .obj [("usd", .num 900)]),
           ("high_24h", .obj [("usd", .num 51000)]),
           ("low_24h", .obj [("usd", .num 49000)]),
           ("ath", .obj [("usd", .num 69000)]),
           ("ath_date", .obj [("usd", .str "2021-11-10")]),
           ("circulating_supply", .num 19000000),
           ("total_supply", .num 21000000)])]

/-- A `/coins/{id}` endpoint answering `coinPayload`. -/
def srvCoinOk : Nat → FetchOutcome := fun _ => .success coinPayload

/-- A `market_chart` endpoint answering an empty price list. -/
def srvHistOk : Nat → FetchOutcome := fun _ => .success (.obj [("prices", .arr [])])

/-- A `/coins/markets` endpoint answering an empty market list. -/
def srvMoversOk : Nat → FetchOutcome := fun _ => .success (.arr [])

/-- A `/simple/price` payload. -/
def pricesPayload : JSON := .obj [("bitcoin", .obj [("usd", .num 50000)])]

/-- A `/simple/price` endpoint answering `pricesPayload`. -/
def srvPricesOk : Nat → FetchOutcome := fun _ => .success pricesPayload

/-- Witness for C5: for each of the five operations, a concrete first call
at t = 1000 that fetched and succeeded, followed by a second identical call
at t = 2000 (inside every TTL window) that is served from the cache with no
queue use and no fetch. -/
theorem domain_ops_cache_once_witness :
    searchCoins 2000 srvSearchOk "btc"
        (searchCoins 1000 srvSearchOk "btc" AppState.empty).state =
      ⟨.ok [], (searchCoins 1000 srvSearchOk "btc" AppState.empty).state,
        false, 0⟩ ∧
    getCoinData 2000 srvCoinOk "bitcoin"
        (getCoinData 1000 srvCoinOk "bitcoin" AppState.empty).state =
      ⟨(getCoinData 1000 srvCoinOk "bitcoin" AppState.empty).result,
        (getCoinData 1000 srvCoinOk "bitcoin" AppState.empty).state, false, 0⟩ ∧
    getPriceHistory 2000 srvHistOk "bitcoin" 7
        (getPriceHistory 1000 srvHistOk "bitcoin" 7 AppState.empty).state =
      ⟨.ok [], (getPriceHistory 1000 srvHistOk "bitcoin" 7 AppState.empty).state,
        false, 0⟩ ∧
    getTopMovers 2000 srvMoversOk
        (getTopMovers 1000 srvMoversOk AppState.empty).state =
      ⟨.ok (moversOf []), (getTopMovers 1000 srvMoversOk AppState.empty).state,
        false, 0⟩ ∧
    getSimplePrices 2000 srvPricesOk ["bitcoin"]
        (getSimplePrices 1000 srvPricesOk ["bitcoin"] AppState.empty).state =
      ⟨.ok pricesPayload,
        (getSimplePrices 1000 srvPricesOk ["bitcoin"] AppState.empty).state,
        false, 0, sortIds ["bitcoin"]⟩ := by
  refine ⟨?_, ?_, ?_, ?_, ?_⟩
  · exact (domain_ops_cache_once.1 1000 2000 srvSearchOk srvSearchOk "btc"
      AppState.empty _ _ rfl (by norm_num)).2
  · exact (domain_ops_cache_once.2.1 1000 2000 srvCoinOk srvCoinOk "bitcoin"
      AppState.empty _ _ rfl (by norm_num)).2
  · exact (domain_ops_cache_once.2.2.1 1000 2000 srvHistOk srvHistOk "bitcoin" 7
      AppState.empty _ _ rfl (by norm_num [historyTTL])).2
  · exact (domain_ops_cache_once.2.2.2.1 1000 2000 srvMoversOk srvMoversOk
      AppState.empty _ _ rfl (by norm_num)).2
  · exact domain_ops_cache_once.2.2.2.2 1000 2000 srvPricesOk srvPricesOk
      ["bitcoin"] AppState.empty _ _ _ rfl rfl (by norm_num)

/-! ### Theorems for claim C7 -/

lemma data_append2 (a b : String) : (a ++ b).data = a.data ++ b.data := by
  cases a
  cases b
  rfl

lemma head_append_lit (a b : String) (c : Char) (h : a.data.head? = some c) :
    (a ++ b).data.head? = some c := by
  rw [data_append2]
  cases hd : a.data with
  | nil => rw [hd] at h; simp at h
  | cons x xs =>
    rw [hd] at h
    simp only [List.head?_cons, Option.some.injEq] at h
    simp [h]

lemma ne_of_heads (s t : String) (c d : Char) (hs : s.data.head? = some c)
    (ht : t.data.head? = some d) (hcd : c ≠ d) : s ≠ t := by
  intro he
  rw [he] at hs
  exact hcd (Option.some.inj (hs.symm.trans ht))

lemma mkAPIError_user (m c u : String) (h : ¬ u = "") :
    (mkAPIError m c u).userMessage = u := by
  unfold mkAPIError
  simp [h]

lemma mkAPIError_message (m c u : String) : (mkAPIError m c u).message = m := rfl

lemma handleAPIError_code_mem (status : Nat) (context : String) :
    (handleAPIError status context).code ∈
      ["NETWORK", "RATE_LIMIT", "NOT_FOUND", "SERVER", "UNKNOWN"] := by
  unfold handleAPIError mkAPIError
  split_ifs <;> simp

lemma classifyCaught_code_mem (name m : String) :
    (classifyCaught name m).code ∈
      ["NETWORK", "RATE_LIMIT", "NOT_FOUND", "SERVER", "UNKNOWN"] := by
  unfold classifyCaught mkAPIError
  split_ifs <;> simp

lemma handleAPIError_user_ne_message (status : Nat) (context : String) :
    (handleAPIError status context).userMessage ≠
      (handleAPIError status context).message := by
  unfold handleAPIError
  split_ifs with h1 h2 h3
  · rw [mkAPIError_user _ _ _ (by decide), mkAPIError_message, msgRATE_LIMIT]
    exact ne_of_heads _ _ 'T' 'R' (by decide) (head_append_lit _ _ 'R' (by decide))
      (by decide)
  · rw [mkAPIError_user _ _ _ (by decide), mkAPIError_message, msgNOT_FOUND]
    exact ne_of_heads _ _ 'C' 'N' (by decide) (head_append_lit _ _ 'N' (by decide))
      (by decide)
  · rw [mkAPIError_user _ _ _ (by decide), mkAPIError_message, msgSERVER]
    exact ne_of_heads _ _ 'C' 'S' (by decide)
      (head_append_lit _ _ 'S' (head_append_lit _ _ 'S' (by decide))) (by decide)
  · rw [mkAPIError_user _ _ _ (by decide), mkAPIError_message, msgUNKNOWN]
    exact ne_of_heads _ _ 'S' 'H' (by decide)
      (head_append_lit _ _ 'H' (head_append_lit _ _ 'H' (by decide))) (by decide)

lemma fetchLoop_error_classified (server : Nat → FetchOutcome) (context : String) :
    ∀ (remaining attempt : Nat) (e : JSErr),
      (fetchLoop server context attempt remaining).result = .error e →
      ∃ ae, e = .api ae ∧
        ae.code ∈ ["NETWORK", "RATE_LIMIT", "NOT_FOUND", "SERVER", "UNKNOWN"] := by
  intro remaining
  induction remaining with
  | zero =>
    intro attempt e h
    rw [fetchLoop] at h
    cases hs : server attempt with
    | success body => rw [hs] at h; simp at h
    | badBody m =>
      rw [hs] at h
      dsimp only at h
      injection h with h2
      exact ⟨_, h2.symm, classifyCaught_code_mem _ _⟩
    | netFail name m =>
      rw [hs] at h
      dsimp only at h
      injection h with h2
      exact ⟨_, h2.symm, classifyCaught_code_mem _ _⟩
    | httpStatus status =>
      rw [hs] at h
      dsimp only at h
      split at h
      · dsimp only at h
        injection h with h2
        exact ⟨_, h2.symm, handleAPIError_code_mem _ _⟩
      · dsimp only at h
        injection h with h2
        exact ⟨_, h2.symm, handleAPIError_code_mem _ _⟩
  | succ r ih =>
    intro attempt e h
    rw [fetchLoop] at h
    cases hs : server attempt with
    | success body => rw [hs] at h; simp at h
    | badBody m =>
      rw [hs] at h
      dsimp only at h
      injection h with h2
      exact ⟨_, h2.symm, classifyCaught_code_mem _ _⟩
    | netFail name m =>
      rw [hs] at h
      dsimp only at h
      injection h with h2
      exact ⟨_, h2.symm, classifyCaught_code_mem _ _⟩
    | httpStatus status =>
      rw [hs] at h
      dsimp only at h
      split at h
      · dsimp only at h
        exact ih (attempt + 1) e h
      · dsimp only at h
        injection h with h2
        exact ⟨_, h2.symm, handleAPIError_code_mem _ _⟩

lemma searchCoins_error_no_write (now : ℚ) (server : Nat → FetchOutcome)
    (query : String) (st : AppState) (e : JSErr)
    (h : (searchCoins now server query st).result = .error e) :
    (searchCoins now server query st).state =
      { st with
        searchCache := (cget st.searchCache ("search:" ++ query.toLower) now).2 } := by
  unfold searchCoins at h ⊢
  rcases hg : cget st.searchCache ("search:" ++ query.toLower) now with ⟨hit, sc⟩
  rw [hg] at h
  cases hit with
  | some v => simp at h
  | none =>
    dsimp only at h
    cases hf : (fetchWithRetry server "coin search" 2).result with
    | error e2 => rfl
    | ok data =>
      rw [hf] at h
      dsimp only at h ⊢
      cases hn : normalizeSearch data with
      | error e2 => rfl
      | ok results => rw [hn] at h; simp at h

lemma getCoinData_error_no_write (now : ℚ) (server : Nat → FetchOutcome)
    (coinId : String) (st : AppState) (e : JSErr)
    (h : (getCoinData now server coinId st).result = .error e) :
    (getCoinData now server coinId st).state =
      { st with coinCache := (cget st.coinCache ("coin:" ++ coinId) now).2 } := by
  unfold getCoinData at h ⊢
  rcases hg : cget st.coinCache ("coin:" ++ coinId) now with ⟨hit, cc⟩
  rw [hg] at h
  cases hit with
  | some v => simp at h
  | none =>
    dsimp only at h
    cases hf : (fetchWithRetry server "coin details" 2).result with
    | error e2 => rfl
    | ok data =>
      rw [hf] at h
      dsimp only at h ⊢
      cases hn : normalizeCoin data with
      | error e2 => rfl
      | ok result => rw [hn] at h; simp at h

lemma getPriceHistory_error_no_write (now : ℚ) (server : Nat → FetchOutcome)
    (coinId : String) (days : Nat) (st : AppState) (e : JSErr)
    (h : (getPriceHistory now server coinId days st).result = .error e) :
    (getPriceHistory now server coinId days st).state =
      { st with
        historyCache :=
          (cget st.historyCache ("history:" ++ coinId ++ ":" ++ toString days) now).2 } := by
  unfold getPriceHistory at h ⊢
  rcases hg : cget st.historyCache ("history:" ++ coinId ++ ":" ++ toString days) now
    with ⟨hit, hc2⟩
  rw [hg] at h
  cases hit with
  | some v => simp at h
  | none =>
    dsimp only at h
    cases hf : (fetchWithRetry server "price history" 2).result with
    | error e2 => rfl
    | ok data =>
      rw [hf] at h
      dsimp only at h ⊢
      cases hn : normalizeHistory data with
      | error e2 => rfl
      | ok result => rw [hn] at h; simp at h

lemma getTopMovers_error_no_write (now : ℚ) (server : Nat → FetchOutcome)
    (st : AppState) (e : JSErr)
    (h : (getTopMovers now server st).result = .error e) :
    (getTopMovers now server st).state =
      { st with moversCache := (cget st.moversCache "movers" now).2 } := by
  unfold getTopMovers at h ⊢
  rcases hg : cget st.moversCache "movers" now with ⟨hit, mc⟩
  rw [hg] at h
  cases hit with
  | some v => simp at h
  | none =>
    dsimp only at h
    cases hf : (fetchWithRetry server "market data" 2).result with
    | error e2 => rfl
    | ok data =>
      rw [hf] at h
      dsimp only at h ⊢
      cases hn : normalizeMovers data with
      | error e2 => rfl
      | ok result => rw [hn] at h; simp at h

lemma getSimplePrices_error_no_write (now : ℚ) (server : Nat → FetchOutcome)
    (ids : List String) (st : AppState) (e : JSErr)
    (h : (getSimplePrices now server ids st).result = .error e) :
    (getSimplePrices now server ids st).state =
      { st with
        pricesCache :=
          (cget st.pricesCache
            ("prices:" ++ String.intercalate "," (sortIds ids)) now).2 } := by
  unfold getSimplePrices at h ⊢
  by_cases hne : ids = []
  · rw [if_pos hne] at h
    simp at h
  · rw [if_neg hne] at h ⊢
    rcases hg : cget st.pricesCache
      ("prices:" ++ String.intercalate "," (sortIds ids)) now with ⟨hit, pc⟩
    rw [hg] at h
    cases hit with
    | some v =>
      dsimp only at h ⊢
      by_cases htv : jsTruthy v
      · rw [if_pos htv] at h
        simp at h
      · rw [if_neg htv] at h ⊢
        unfold spMiss at h ⊢
        cases hf : (fetchWithRetry server "watchlist prices" 2).result with
        | error e2 => rfl
        | ok data => rw [hf] at h; simp at h
    | none =>
      dsimp only at h ⊢
      unfold spMiss at h ⊢
      cases hf : (fetchWithRetry server "watchlist prices" 2).result with
      | error e2 => rfl
      | ok data => rw [hf] at h; simp at h

/-- A 2xx response whose JSON body has an unexpected shape: no `coins`
field. -/
def srvBadShape : Nat → FetchOutcome := fun _ => .success (.obj [])

/-- C7 fails for an upstream payload of unexpected shape: the normalization
runs inside the enqueued closure, after `fetchWithRetry` has already
returned, so the `TypeError` it throws is never wrapped — the caller
receives a plain unclassified `TypeError` with no `userMessage`, not an
UNKNOWN-classified error. -/
theorem unexpected_shape_counterexample :
    (searchCoins 1000 srvBadShape "btc" AppState.empty).result =
      .error (.plain "TypeError" ("slice" ++ " is not a function")) ∧
    JSErr.isClassified (.plain "TypeError" ("slice" ++ " is not a function")) =
      false := by
  constructor
  · rfl
  · rfl

/-- C7 amended: errors raised inside `fetchWithRetry` — HTTP error
statuses, transport failures, unparseable bodies — are always delivered as
classified errors of one of the five kinds, the status-classified ones
carrying a user message distinct from the technical message; no operation
writes a cache entry when it fails (the only store change of a failed call
is the lazy eviction done by the cache read).  A payload of unexpected
shape, however, throws during normalization, outside the wrapper, and is
delivered to the caller as an unclassified `TypeError` (still not
swallowed, and still cached nowhere). -/
theorem error_delivery_spec :
    (∀ status context,
      (handleAPIError status context).code ∈
        ["NETWORK", "RATE_LIMIT", "NOT_FOUND", "SERVER", "UNKNOWN"] ∧
      (handleAPIError status context).userMessage ≠
        (handleAPIError status context).message) ∧
    (∀ server context e,
      (fetchWithRetry server context 2).result = .error e →
      ∃ ae, e = .api ae ∧
        ae.code ∈ ["NETWORK", "RATE_LIMIT", "NOT_FOUND", "SERVER", "UNKNOWN"]) ∧
    (∀ now server query st e,
      (searchCoins now server query st).result = .error e →
      (searchCoins now server query st).state =
        { st with
          searchCache :=
            (cget st.searchCache ("search:" ++ query.toLower) now).2 }) ∧
    (∀ now server coinId st e,
      (getCoinData now server coinId st).result = .error e →
      (getCoinData now server coinId st).state =
        { st with coinCache := (cget st.coinCache ("coin:" ++ coinId) now).2 }) ∧
    (∀ now server coinId days st e,
      (getPriceHistory now server coinId days st).result = .error e →
      (getPriceHistory now server coinId days st).state =
        { st with
          historyCache :=
            (cget st.historyCache
              ("history:" ++ coinId ++ ":" ++ toString days) now).2 }) ∧
    (∀ now server st e,
      (getTopMovers now server st).result = .error e →
      (getTopMovers now server st).state =
        { st with moversCache := (cget st.moversCache "movers" now).2 }) ∧
    (∀ now server ids st e,
      (getSimplePrices now server ids st).result = .error e →
      (getSimplePrices now server ids st).state =
        { st with
          pricesCache :=
            (cget st.pricesCache
              ("prices:" ++ String.intercalate "," (sortIds ids)) now).2 }) :=
  ⟨fun status context =>
      ⟨handleAPIError_code_mem status context,
       handleAPIError_user_ne_message status context⟩,
   fun server context e h => fetchLoop_error_classified server context 2 0 e h,
   fun now server query st e h => searchCoins_error_no_write now server query st e h,
   fun now server coinId st e h => getCoinData_error_no_write now server coinId st e h,
   fun now server coinId days st e h =>
      getPriceHistory_error_no_write now server coinId days st e h,
   fun now server st e h => getTopMovers_error_no_write now server st e h,
   fun now server ids st e h => getSimplePrices_error_no_write now server ids st e h⟩

/-- A `/coins/{id}` endpoint that always answers 404. -/
def srv404 : Nat → FetchOutcome := fun _ => .httpStatus 404

/-- Witness for the amended C7, at status 503 and at concrete failing runs
of the five operations against a server answering 404. -/
theorem error_delivery_spec_witness :
    ((handleAPIError 503 "market data").code ∈
        ["NETWORK", "RATE_LIMIT", "NOT_FOUND", "SERVER", "UNKNOWN"] ∧
      (handleAPIError 503 "market data").userMessage ≠
        (handleAPIError 503 "market data").message) ∧
    (∃ ae, (JSErr.api (handleAPIError 404 "coin search")) = .api ae ∧
      ae.code ∈ ["NETWORK", "RATE_LIMIT", "NOT_FOUND", "SERVER", "UNKNOWN"]) ∧
    (searchCoins 1000 srv404 "btc" AppState.empty).state =
      { AppState.empty with
        searchCache :=
          (cget AppState.empty.searchCache ("search:" ++ "btc".toLower) 1000).2 } ∧
    (getCoinData 1000 srv404 "bitcoin" AppState.empty).state =
      { AppState.empty with
        coinCache := (cget AppState.empty.coinCache ("coin:" ++ "bitcoin") 1000).2 } ∧
    (getPriceHistory 1000 srv404 "bitcoin" 7 AppState.empty).state =
      { AppState.empty with
        historyCache :=
          (cget AppState.empty.historyCache
            ("history:" ++ "bitcoin" ++ ":" ++ toString 7) 1000).2 } ∧
    (getTopMovers 1000 srv404 AppState.empty).state =
      { AppState.empty with
        moversCache := (cget AppState.empty.moversCache "movers" 1000).2 } ∧
    (getSimplePrices 1000 srv404 ["bitcoin"] AppState.empty).state =
      { AppState.empty with
        pricesCache :=
          (cget AppState.empty.pricesCache
            ("prices:" ++ String.intercalate "," (sortIds ["bitcoin"])) 1000).2 } :=
  ⟨error_delivery_spec.1 503 "market data",
   error_delivery_spec.2.1 srv404 "coin search" _ rfl,
   error_delivery_spec.2.2.1 1000 srv404 "btc" AppState.empty _ rfl,
   error_delivery_spec.2.2.2.1 1000 srv404 "bitcoin" AppState.empty _ rfl,
   error_delivery_spec.2.2.2.2.1 1000 srv404 "bitcoin" 7 AppState.empty _ rfl,
   error_delivery_spec.2.2.2.2.2.1 1000 srv404 AppState.empty _ rfl,
   error_delivery_spec.2.2.2.2.2.2 1000 srv404 ["bitcoin"] AppState.empty _ rfl⟩

/-! ### Theorems for claim C8 -/

lemma normalizeMovers_arr (elems : List JSON) (coins : List MoverCoin)
    (hnorm : mapJS normMoverCoin elems = .ok coins) :
    normalizeMovers (.arr elems) = .ok (moversOf coins) := by
  unfold normalizeMovers
  have ha : asElems (some (.arr elems)) "map" = .ok elems := rfl
  rw [ha, except_bind_ok, hnorm, except_bind_ok, except_pure_eq]

/-- C8: on an upstream response of 100 coins, `getTopMovers` sorts the full
normalized set by descending 24-hour change (a stable sort) and returns
exactly the first 5 as gainers, in descending order, and the last 5
reversed as losers, ordered most-negative first, with no coin in both
sets. -/
theorem getTopMovers_spec (now : ℚ) (server : Nat → FetchOutcome)
    (st : AppState) (elems : List JSON) (coins : List MoverCoin)
    (hsrv : server 0 = .success (.arr elems))
    (hmiss : (cget st.moversCache "movers" now).1 = none)
    (hnorm : mapJS normMoverCoin elems = .ok coins)
    (hlen : coins.length = 100)
    (hnd : (coins.map MoverCoin.priceChange24h).Nodup) :
    (getTopMovers now server st).result = .ok (moversOf coins) ∧
    (moversOf coins).gainers = (coins.insertionSort changeGE).take 5 ∧
    (moversOf coins).losers = ((coins.insertionSort changeGE).drop 95).reverse ∧
    (moversOf coins).gainers.length = 5 ∧
    (moversOf coins).losers.length = 5 ∧
    List.Sorted changeGE (moversOf coins).gainers ∧
    List.Sorted (fun a b => a.priceChange24h ≤ b.priceChange24h)
      (moversOf coins).losers ∧
    (moversOf coins).gainers.Disjoint (moversOf coins).losers := by
  have hslen : (coins.insertionSort changeGE).length = 100 := by
    rw [List.length_insertionSort]
    exact hlen
  have hgain : (moversOf coins).gainers = (coins.insertionSort changeGE).take 5 := rfl
  have hlose : (moversOf coins).losers =
      ((coins.insertionSort changeGE).drop 95).reverse := by
    unfold moversOf
    dsimp only
    rw [hslen]
  have hsorted : List.Sorted changeGE (coins.insertionSort changeGE) :=
    List.sorted_insertionSort changeGE coins
  have hnodup : (coins.insertionSort changeGE).Nodup :=
    ((List.perm_insertionSort changeGE coins).symm).nodup (List.Nodup.of_map _ hnd)
  refine ⟨?_, hgain, hlose, ?_, ?_, ?_, ?_, ?_⟩
  · unfold getTopMovers
    rcases hg : cget st.moversCache "movers" now with ⟨hit, mc⟩
    rw [hg] at hmiss
    simp only at hmiss
    subst hmiss
    have hfr : (fetchWithRetry server "market data" 2).result = .ok (.arr elems) := by
      rw [fetchWithRetry, fetchLoop, hsrv]
    dsimp only
    rw [hfr]
    dsimp only
    rw [normalizeMovers_arr elems coins hnorm]
  · rw [hgain, List.length_take, hslen]
    norm_num
  · rw [hlose, List.length_reverse, List.length_drop, hslen]
  · rw [hgain]
    exact List.Pairwise.sublist (List.take_sublist 5 _) hsorted
  · rw [hlose]
    refine List.pairwise_reverse.mpr ?_
    exact List.Pairwise.sublist (List.drop_sublist 95 _) hsorted
  · rw [hgain, hlose]
    intro a ha hb
    rw [List.mem_reverse] at hb
    exact List.disjoint_take_drop hnodup (by norm_num) ha hb

/-- A concrete `/coins/markets` payload of 100 coins with distinct 24h
changes. -/
def mvElems : List JSON :=
  (List.range 100).map fun (i : Nat) =>
    .obj [("id", .str (toString i)), ("price_change_percentage_24h", .num i)]

/-- The normalization of `mvElems`. -/
def mvCoins : List MoverCoin :=
  (List.range 100).map fun (i : Nat) =>
    ⟨some (.str (toString i)), none, none, none, none, (i : ℚ)⟩

/-- A `/coins/markets` endpoint answering `mvElems`. -/
def srvMovers100 : Nat → FetchOutcome := fun _ => .success (.arr mvElems)

set_option maxRecDepth 100000 in
/-- Witness for C8 at the concrete 100-coin payload `mvElems`. -/
theorem getTopMovers_spec_witness :
    (getTopMovers 1000 srvMovers100 AppState.empty).result =
      .ok (moversOf mvCoins) ∧
    (moversOf mvCoins).gainers = (mvCoins.insertionSort changeGE).take 5 ∧
    (moversOf mvCoins).losers = ((mvCoins.insertionSort changeGE).drop 95).reverse ∧
    (moversOf mvCoins).gainers.length = 5 ∧
    (moversOf mvCoins).losers.length = 5 ∧
    List.Sorted changeGE (moversOf mvCoins).gainers ∧
    List.Sorted (fun a b => a.priceChange24h ≤ b.priceChange24h)
      (moversOf mvCoins).losers ∧
    (moversOf mvCoins).gainers.Disjoint (moversOf mvCoins).losers := by
  have hmap : mvCoins.map MoverCoin.priceChange24h =
      (List.range 100).map (fun i : Nat => (i : ℚ)) := by
    rw [mvCoins, List.map_map]
    rfl
  have hnd : (mvCoins.map MoverCoin.priceChange24h).Nodup := by
    rw [hmap]
    exact (List.nodup_range 100).map (fun a b h => Nat.cast_injective h)
  exact getTopMovers_spec 1000 srvMovers100 AppState.empty mvElems mvCoins rfl rfl
    rfl (by rw [mvCoins, List.length_map, List.length_range]) hnd

end CryptoData
